import Mathlib

/-!
Verification of the dialogue-orchestration core of the cortinas WhatsApp
agent (`src/index.js`, the `AI-only state` iteration, which is the most
complete one and the one the design document describes).

The JavaScript source is shallowly embedded: every pure helper becomes a
Lean function with the same name, the per-conversation mutable `lead`
record becomes the `Lead` structure threaded through explicit state
passing, and the observable side effects of one processed inbound message
(inference-provider calls, outbound sends, transcript/snapshot writes)
become an explicit `Effect` list.  The inference provider itself is a
black box, so its two possible answers during one processed message are
passed in as oracle values (`Ev.o1`, `Ev.o2`); `none` stands for a
timeout, a thrown error, or an unparseable response — exactly the cases
the JavaScript `catch` blocks conflate.
-/

namespace Cortinas

/-- Observable side effects of processing one inbound message.
`aiCall model historyN timeoutMs` records one invocation of
`withTimeout(aiDecideAndReply({...opts:{model, historyN}}), timeoutMs)`;
`send to body` records an actual outbound carrier send (the source's
`sendWhatsApp` suppresses the send in DEV_MODE, so a suppressed call
produces no `send` effect); `convWrite` records one
`upsertConversationFile`; `snapshot tag` records one
`saveLeadSnapshot(lead, tag)`. -/
inductive Effect where
  | aiCall (model : String) (historyN : Nat) (timeoutMs : Nat)
  | send (dest : String) (body : String)
  | convWrite
  | snapshot (tag : String)
deriving Repr, DecidableEq

/-- One entry of `lead.messages`.  The JavaScript key `from` is a Lean
keyword, so it is embedded as `origin`. -/
structure Msg where
  ts : String
  origin : String
  text : String
deriving Repr, DecidableEq

/-- The source's `pendingHandoff` object `{ type, requestedAt }`. -/
structure PendingHandoff where
  type : String
  requestedAt : String
deriving Repr, DecidableEq

/-- The per-conversation state created by `getLead` in the source. -/
structure Lead where
  phone : String
  name : String
  zone : String
  intentSummary : String
  messages : List Msg
  createdAt : String
  handedOff : Bool
  pendingHandoff : Option PendingHandoff
deriving Repr, DecidableEq

/-- The structured object `aiDecideAndReply` returns to `processInbound`. -/
structure Decision where
  reply : String
  name : String
  zone : String
  intentSummary : String
  handoff_intent : String
deriving Repr, DecidableEq

/-- Deployment configuration read from the environment at startup:
`DEV_MODE`, `HANDOFF_TO`, `AI_MODEL_MAIN`, `AI_MODEL_RETRY`. -/
structure Config where
  devMode : Bool
  handoffTo : String
  modelMain : String
  modelRetry : String
deriving Repr, DecidableEq

/-- One inbound webhook event together with the oracle answers of the
external inference provider for this processing run.  `body` is the raw
`req.body.Body`, `source` the raw `req.body.From` (reply destination),
`nowIso` the value `nowTs()` returns during this run and `tsName` the
value `filenameTs()` returns.  `o1` is the outcome of the primary
provider call, `o2` of the retry; `none` means timeout / error /
unparseable output. -/
structure Ev where
  body : String
  source : String
  nowIso : String
  tsName : String
  o1 : Option Decision
  o2 : Option Decision
deriving Repr, DecidableEq

/-! ### String helpers mirroring the JavaScript ones -/

/-- Whitespace in the sense of JavaScript's `String.prototype.trim`
(restricted to the code points that can realistically occur here). -/
def jsIsSpace (c : Char) : Bool :=
  c = ' ' || c = '\t' || c = '\n' || c = '\r' ||
  c.toNat = 11 || c.toNat = 12 || c.toNat = 160

/-- Embedding of `String.prototype.trim`. -/
def jsTrim (s : String) : String :=
  String.mk (((s.data.dropWhile jsIsSpace).reverse.dropWhile jsIsSpace).reverse)

/-- Character-wise lowercasing covering ASCII plus the accented Spanish
capitals, the fragment of `String.prototype.toLowerCase` relevant to
this source. -/
def jsLowerChar (c : Char) : Char :=
  if 'A' ≤ c ∧ c ≤ 'Z' then Char.ofNat (c.toNat + 32)
  else if c = 'Á' then 'á'
  else if c = 'É' then 'é'
  else if c = 'Í' then 'í'
  else if c = 'Ó' then 'ó'
  else if c = 'Ú' then 'ú'
  else if c = 'Ñ' then 'ñ'
  else if c = 'Ü' then 'ü'
  else c

/-- Embedding of `String.prototype.toLowerCase` (see `jsLowerChar`). -/
def jsToLower (s : String) : String :=
  String.mk (s.data.map jsLowerChar)

/-- JavaScript `String.prototype.length` counts UTF-16 code units, so an
astral code point (such as the 👋 emoji) counts as 2. -/
def jsLength (s : String) : Nat :=
  s.data.foldl (fun n c => n + (if c.toNat ≥ 65536 then 2 else 1)) 0

/-- Embedding of the JavaScript idiom `s || d` for strings: the default
wins exactly when `s` is empty. -/
def orElseStr (s d : String) : String :=
  if s = "" then d else s

/-- Collapse every maximal whitespace run into a single underscore, the
effect of `.replace(/\s+/g, "_")`.  The boolean argument records whether
the previous character was whitespace. -/
def collapseWsAux : Bool → List Char → List Char
  | _, [] => []
  | inWs, c :: cs =>
    if c.isWhitespace then
      if inWs then collapseWsAux true cs else '_' :: collapseWsAux true cs
    else c :: collapseWsAux false cs

/-- Characters kept by `.replace(/[^a-z0-9_\-]/gi, "")`. -/
def keepFileChar (c : Char) : Bool :=
  ('a' ≤ c ∧ c ≤ 'z') ∨ ('A' ≤ c ∧ c ≤ 'Z') ∨ ('0' ≤ c ∧ c ≤ '9') ∨ c = '_' ∨ c = '-'

/-- Embedding of the source's `sanitizeForFilename`. -/
def sanitizeForFilename (s : String) : String :=
  let t := ((collapseWsAux false (jsToLower (jsTrim s)).data).filter keepFileChar).take 40
  if t.isEmpty then "na" else String.mk t

/-- Embedding of `.replace("+", "")`, which removes only the first
occurrence. -/
def removeFirstPlus : List Char → List Char
  | [] => []
  | c :: cs => if c = '+' then cs else c :: removeFirstPlus cs

/-! ### Conversation-level helpers from the source -/

/-- Embedding of `appendMessage(lead, fromLabel, text)`; `ts` is the
`nowTs()` value of the running task. -/
def appendMessage (lead : Lead) (ts origin text : String) : Lead :=
  { lead with messages := lead.messages ++ [⟨ts, origin, text⟩] }

/-- Embedding of `safeHandoffType`: only `"visit"` and `"price"` are
valid handoff types, anything else (including a missing value) is
`null`. -/
def safeHandoffType : Option String → Option String
  | some t => if t = "visit" ∨ t = "price" then some t else none
  | none => none

/-- The handoff type currently pending for a lead,
`safeHandoffType(lead.pendingHandoff?.type)` in the source. -/
def pendingTypeOf (lead : Lead) : Option String :=
  safeHandoffType (lead.pendingHandoff.map (fun p => p.type))

/-- The greetings list of `isTrivialGreeting`. -/
def greetingsList : List String :=
  ["hola", "holaa", "holaaa", "buenas", "buen día", "buen dia",
   "buenos días", "buenos dias", "buenas tardes", "buenas noches",
   "hello", "hi", "hey", "👋"]

/-- Embedding of `isTrivialGreeting`: empty after trimming, at most 3
UTF-16 units long, or literally one of the listed greetings. -/
def isTrivialGreeting (text : String) : Bool :=
  let t := jsToLower (jsTrim text)
  if t = "" then true
  else if jsLength t ≤ 3 then true
  else greetingsList.contains t

/-- Embedding of `askMissingForHandoff`, the deterministic question for
the data still missing before a handoff.  The source comment reads: "One
question max. If two fields missing, ask both in one sentence." -/
def askMissingForHandoff (lead : Lead) : String :=
  let missingName := lead.name = ""
  let missingZone := lead.zone = ""
  let missingIntent := lead.intentSummary = ""
  if missingIntent ∧ (missingName ∨ missingZone) then
    "Perfecto 🙂 Antes de derivarte, ¿me contás brevemente qué estás buscando (tipo de cortina y para qué ambiente) y tu nombre + zona/barrio?"
  else if missingIntent then
    "Perfecto 🙂 Antes de derivarte, ¿me contás brevemente qué estás buscando (tipo de cortina y para qué ambiente)?"
  else if missingName ∧ missingZone then
    "Dale 🙂 Antes de pasarte con un asesor, ¿me decís tu nombre y en qué zona/barrio estás?"
  else if missingName then
    "Dale 🙂 Antes de pasarte con un asesor, ¿me decís tu nombre?"
  else if missingZone then
    "Perfecto 🙂 ¿En qué zona/barrio estás (Rosario o alrededores)?"
  else
    "Perfecto 🙂"

/-- Which of the three tracked qualification fields the corresponding
`askMissingForHandoff` branch textually asks the customer for.  The
branch structure is identical to `askMissingForHandoff`; the field list
of each branch transcribes the requests contained in that branch's
Spanish sentence (the first asks for the intent plus "tu nombre +
zona/barrio", the third for "tu nombre y en qué zona/barrio estás", and
so on). -/
def requestedFields (lead : Lead) : List String :=
  let missingName := lead.name = ""
  let missingZone := lead.zone = ""
  let missingIntent := lead.intentSummary = ""
  if missingIntent ∧ (missingName ∨ missingZone) then
    ["intentSummary", "name", "zone"]
  else if missingIntent then
    ["intentSummary"]
  else if missingName ∧ missingZone then
    ["name", "zone"]
  else if missingName then
    ["name"]
  else if missingZone then
    ["zone"]
  else
    []

/-- Count of question marks in a reply, the formal rendering of "asks a
single question". -/
def questionCount (s : String) : Nat :=
  s.data.count '?'

/-! ### Outbound sends and canned replies -/

/-- Embedding of `sendWhatsApp(toWhatsApp, body)` as the effects it
produces: nothing for an empty destination, nothing in DEV_MODE (the
source only logs there), otherwise the actual carrier send. -/
def sendWhatsApp (cfg : Config) (dest body : String) : List Effect :=
  if dest = "" then []
  else if cfg.devMode then []
  else [Effect.send dest body]

/-- The fixed post-handoff acknowledgment
`¡Gracias${lead.name ? `, ${lead.name}` : ""}! Ya se lo pasé al asesor 🙌`. -/
def ackReply (lead : Lead) : String :=
  "¡Gracias" ++ (if lead.name = "" then "" else ", " ++ lead.name) ++ "! Ya se lo pasé al asesor 🙌"

/-- The deterministic handoff confirmation sent instead of an
AI-generated reply. -/
def confirmReply (lead : Lead) : String :=
  "Perfecto" ++ (if lead.name = "" then "" else ", " ++ lead.name) ++ ". 🙌 Ya te paso con un asesor.\nGracias por escribirnos."

/-- The fixed greeting used when no AI call is made and no reply is
available. -/
def helloReply : String :=
  "Hola 👋 Soy Caia, asistente de Cortinas Argentinas. ¿En qué te puedo ayudar?"

/-- The deterministic reply used when both provider attempts failed and
no handoff is pending. -/
def techFallback : String :=
  "Disculpá, tuve un problema técnico. ¿Me contás brevemente qué tipo de cortina buscás y para qué ambiente?"

/-- First line of the message forwarded to the operator for a message
arriving after the handoff. -/
def fwdMarker : String :=
  "📩 Mensaje después del handoff\n"

/-- Body of the post-handoff forward to `HANDOFF_TO`. -/
def forwardBody (lead : Lead) (incoming : String) : String :=
  fwdMarker ++
    ("Nombre: " ++ orElseStr lead.name "sin_nombre" ++
     "\nZona: " ++ orElseStr lead.zone "sin_zona" ++
     "\nInterés: " ++ orElseStr lead.intentSummary "sin_contexto" ++
     "\nTel: " ++ lead.phone ++
     "\nMensaje: " ++ incoming)

/-- File name produced by `saveLeadSnapshot` (its own `path.basename`). -/
def snapshotFileName (tsName tag : String) (lead : Lead) : String :=
  tsName ++ "_" ++ tag ++ "_" ++
    sanitizeForFilename (String.mk (removeFirstPlus lead.phone.data)) ++ "_" ++
    sanitizeForFilename (orElseStr lead.name "sin_nombre") ++ "_" ++
    sanitizeForFilename (orElseStr lead.zone "sin_zona") ++ "_" ++
    sanitizeForFilename (orElseStr lead.intentSummary "sin_contexto") ++ ".txt"

/-- Body of the one-time handoff notification to `HANDOFF_TO`. -/
def handoffNotifyBody (tag : String) (lead : Lead) (incoming snapName : String) : String :=
  (if tag = "visit" then "📅" else "🧑‍💼") ++
    (" HANDOFF (" ++ tag ++ ")\n" ++
     "Nombre: " ++ orElseStr lead.name "sin_nombre" ++
     "\nZona: " ++ orElseStr lead.zone "sin_zona" ++
     "\nInterés: " ++ orElseStr lead.intentSummary "sin_contexto" ++
     "\nTel: " ++ lead.phone ++
     "\nMensaje: " ++ incoming ++
     "\nSnapshot: " ++ snapName)

/-! ### Handoff notifier -/

/-- Embedding of `doHandoff({lead, incoming, reasonTag})`.  It is a
no-op when `lead.handedOff` is already true; otherwise it sets
`handedOff`, writes the snapshot and the conversation file, and — in
DEV_MODE — appends a suppression note instead of notifying the
operator. -/
def doHandoff (cfg : Config) (ev : Ev) (lead : Lead) (incoming tag : String) :
    Lead × List Effect :=
  if lead.handedOff then (lead, [])
  else
    let lead := { lead with handedOff := true }
    let snapName := snapshotFileName ev.tsName tag lead
    if cfg.devMode then
      let lead := appendMessage lead ev.nowIso "system"
        ("DEV_MODE: handoff suprimido. Tag=" ++ tag ++ " Snapshot=" ++ snapName)
      (lead, [Effect.snapshot tag, Effect.convWrite, Effect.convWrite])
    else
      (lead, [Effect.snapshot tag, Effect.convWrite] ++
        (if cfg.handoffTo = "" then []
         else sendWhatsApp cfg cfg.handoffTo (handoffNotifyBody tag lead incoming snapName)))

/-! ### Decision application (steps 4–6 of `processInbound`) -/

/-- Step 4 of `processInbound`: apply the decision's state updates "only
if non-empty; never overwrite existing". -/
def mergeFields (lead : Lead) (out : Decision) : Lead :=
  { lead with
    name := if lead.name = "" ∧ out.name ≠ "" then out.name else lead.name
    zone := if lead.zone = "" ∧ out.zone ≠ "" then out.zone else lead.zone
    intentSummary :=
      if lead.intentSummary = "" ∧ out.intentSummary ≠ "" then out.intentSummary
      else lead.intentSummary }

/-- The handoff type the decision itself requests,
`safeHandoffType(out.handoff_intent === "price" ? "price" : out.handoff_intent === "visit" ? "visit" : null)`. -/
def aiIntentOf (out : Decision) : Option String :=
  safeHandoffType
    (if out.handoff_intent = "price" then some "price"
     else if out.handoff_intent = "visit" then some "visit"
     else none)

/-- The readiness condition `Boolean(lead.intentSummary && lead.name && lead.zone)`. -/
def readyOf (lead : Lead) : Bool :=
  lead.intentSummary ≠ "" ∧ lead.name ≠ "" ∧ lead.zone ≠ ""

/-- The handoff type driving step 5, `pendingType || aiHandoff` in the
source: a pending request from an earlier turn wins over the current
decision's intent. -/
def activeTypeOf (lead : Lead) (out : Decision) : Option String :=
  (pendingTypeOf lead).orElse (fun _ => aiIntentOf out)

/-- Steps 4–6 of `processInbound`, reached once a decision `out` is
available: merge the extracted fields, decide on a handoff, and reply. -/
def afterDecision (cfg : Config) (ev : Ev) (incoming : String) (out : Decision)
    (lead : Lead) : Lead × List Effect :=
  let merged := mergeFields lead out
  match activeTypeOf lead out with
  | some activeTy =>
    if readyOf merged then
      let confirm := confirmReply merged
      let l1 := appendMessage merged ev.nowIso "bot" confirm
      let l2 := { l1 with pendingHandoff := none }
      let dh := doHandoff cfg ev l2 incoming activeTy
      (dh.1, [Effect.convWrite, Effect.convWrite] ++
        sendWhatsApp cfg ev.source confirm ++ [Effect.convWrite] ++ dh.2)
    else
      let l1 :=
        if merged.pendingHandoff.isNone then
          { merged with pendingHandoff := some ⟨activeTy, ev.nowIso⟩ }
        else merged
      let reply := if jsTrim out.reply ≠ "" then jsTrim out.reply else askMissingForHandoff l1
      let l2 := appendMessage l1 ev.nowIso "bot" reply
      (l2, [Effect.convWrite, Effect.convWrite] ++ sendWhatsApp cfg ev.source reply)
  | none =>
    let reply := if jsTrim out.reply ≠ "" then jsTrim out.reply else helloReply
    let l1 := appendMessage merged ev.nowIso "bot" reply
    (l1, [Effect.convWrite, Effect.convWrite] ++ sendWhatsApp cfg ev.source reply)

/-! ### Main processing -/

/-- The deterministic reply synthesized when both provider attempts
failed: the missing-field question if a handoff is pending, otherwise
the fixed technical-issue message. -/
def fallbackReply (lead : Lead) : String :=
  match pendingTypeOf lead with
  | some _ => askMissingForHandoff lead
  | none => techFallback

/-- Embedding of `processInbound({incoming, from, lead})`.  The returned
effect list records, in program order, the provider calls, the actual
outbound sends, and the transcript/snapshot writes of this run. -/
def processInbound (cfg : Config) (ev : Ev) (lead : Lead) : Lead × List Effect :=
  let incoming := jsTrim ev.body
  if lead.handedOff then
    let reply := ackReply lead
    let l1 := appendMessage lead ev.nowIso "bot" reply
    (l1, [Effect.convWrite] ++ sendWhatsApp cfg ev.source reply ++
      (if cfg.devMode = false ∧ cfg.handoffTo ≠ "" then
        sendWhatsApp cfg cfg.handoffTo (forwardBody l1 incoming)
       else []))
  else
    if isTrivialGreeting incoming then
      match pendingTypeOf lead with
      | some _ =>
        let ask := askMissingForHandoff lead
        let l1 := appendMessage lead ev.nowIso "bot" ask
        (l1, [Effect.convWrite] ++ sendWhatsApp cfg ev.source ask)
      | none =>
        let l1 := appendMessage lead ev.nowIso "bot" helloReply
        (l1, [Effect.convWrite] ++ sendWhatsApp cfg ev.source helloReply)
    else
      let call1 : List Effect := [Effect.aiCall cfg.modelMain 8 6500]
      match ev.o1 with
      | some out =>
        let r := afterDecision cfg ev incoming out lead
        (r.1, call1 ++ r.2)
      | none =>
        let call2 : List Effect := [Effect.aiCall cfg.modelRetry 4 4500]
        match ev.o2 with
        | some out =>
          let r := afterDecision cfg ev incoming out lead
          (r.1, call1 ++ call2 ++ r.2)
        | none =>
          let l1 := appendMessage lead ev.nowIso "bot" (fallbackReply lead)
          (l1, call1 ++ call2 ++ [Effect.convWrite] ++
            sendWhatsApp cfg ev.source (fallbackReply lead))

/-- The decision the run effectively applies: the primary call's answer
when it succeeded, else the retry's. -/
def oracleDecision (ev : Ev) : Option Decision :=
  ev.o1.orElse (fun _ => ev.o2)

/-- The synchronous part of the `/whatsapp` handler for one request:
trim the body, append the inbound message, write the transcript, then
run `processInbound`. -/
def webhookStep (cfg : Config) (ev : Ev) (lead : Lead) : Lead × List Effect :=
  let l1 := appendMessage lead ev.nowIso "lead" (jsTrim ev.body)
  let r := processInbound cfg ev l1
  (r.1, Effect.convWrite :: r.2)

/-- A whole conversation-lifetime trace: fold `webhookStep` over the
inbound events in arrival order, accumulating effects. -/
def runTrace (cfg : Config) : Lead → List Ev → Lead × List Effect
  | lead, [] => (lead, [])
  | lead, ev :: evs =>
    let r1 := webhookStep cfg ev lead
    let r2 := runTrace cfg r1.1 evs
    (r2.1, r1.2 ++ r2.2)

/-- The `.catch` attached to the background `processInbound` call in the
webhook: a failing task is recovered by appending a system log entry;
nothing else of the conversation changes. -/
def failCatch (lead : Lead) (ev : Ev) (errMsg : String) : Lead :=
  appendMessage lead ev.nowIso "system" ("PROCESS_INBOUND_ERR: " ++ errMsg)

/-- The fresh conversation `getLead` creates on first contact. -/
def freshLead (phone createdAt : String) : Lead :=
  { phone := phone, name := "", zone := "", intentSummary := "",
    messages := [], createdAt := createdAt, handedOff := false,
    pendingHandoff := none }

/-- Availability of a conversation.  The design document lists
`availability` among the qualification fields, but the `getLead` record
in the source has no such field and no statement in the source ever
assigns one, so every conversation's availability is the empty string. -/
def availabilityOf (_ : Lead) : String := ""

/-! ### Effect observations -/

/-- Recognizer for provider-call effects. -/
def isAiCall : Effect → Bool
  | Effect.aiCall _ _ _ => true
  | _ => false

/-- The provider calls among an effect list, in order. -/
def aiCalls (effs : List Effect) : List Effect :=
  effs.filter isAiCall

/-- Recognizer for snapshot writes; `saveLeadSnapshot` is called only by
`doHandoff`, so these effects identify actual handoffs. -/
def isSnapshotEff : Effect → Bool
  | Effect.snapshot _ => true
  | _ => false

/-- Number of handoff snapshots in an effect list. -/
def snapshotCount (effs : List Effect) : Nat :=
  (effs.filter isSnapshotEff).length

/-- Does the first list occur as an initial segment of the second? -/
def listStarts : List Char → List Char → Bool
  | [], _ => true
  | _ :: _, [] => false
  | p :: ps, c :: cs => p = c && listStarts ps cs

/-- Recognizer for the post-handoff forward notice to the operator: of
all the texts the system ever sends, exactly `forwardBody` opens with
the 📩 pictograph. -/
def isForwardNotice : Effect → Bool
  | Effect.send _ body => body.data.head? = some '📩'
  | _ => false

/-- Number of forwarded post-handoff notices in an effect list. -/
def forwardCount (effs : List Effect) : Nat :=
  (effs.filter isForwardNotice).length

/-- The texts of the messages `after` has beyond `before`. -/
def newMessages (before after : Lead) : List Msg :=
  after.messages.drop before.messages.length

/-- The texts of the bot replies appended between two lead states. -/
def botTexts (before after : Lead) : List String :=
  ((newMessages before after).filter (fun m => m.origin = "bot")).map Msg.text

/-- Invariant of every reachable conversation: while a handoff request
is pending, its type is valid and at least one required field is still
missing.  `pendingHandoff` is only ever set in the not-ready branch of
step 5 and cleared the moment the fields are complete; see
`processInbound_pendingInv` for its preservation. -/
def pendingInvB (lead : Lead) : Bool :=
  match lead.pendingHandoff with
  | none => true
  | some p =>
    (p.type = "visit" ∨ p.type = "price") ∧
    (lead.intentSummary = "" ∨ lead.name = "" ∨ lead.zone = "")

/-! ### Parsing the inference provider's raw text output

The response-handling tail of `aiDecideAndReply`: trim the raw output,
cut from the first `{` to the last `}`, JSON-parse that substring, and
pick the expected fields out of the parsed object with defaults.  JSON
parsing itself is delegated to `JSON.parse` in the source, so the
embedding takes the parser as an abstract argument and represents a
successfully parsed object as a key/value list. -/

/-- A parsed JSON value, as far as the source inspects it: either a
string or something of another type. -/
inductive JsVal where
  | str (s : String)
  | other
deriving Repr, DecidableEq

/-- Split a list at the first occurrence of `c`: `some (pre, post)` with
`cs = pre ++ c :: post` and `c ∉ pre`, or `none` when `c` is absent. -/
def splitFirst (c : Char) : List Char → Option (List Char × List Char)
  | [] => none
  | x :: xs =>
    if x = c then some ([], xs)
    else (splitFirst c xs).map (fun p => (x :: p.1, p.2))

/-- Lookup of a parsed object's key; with duplicate keys `JSON.parse`
keeps the last one, hence the reversal. -/
def getField (o : List (String × JsVal)) (k : String) : Option JsVal :=
  o.reverse.lookup k

/-- A field read as `typeof v === "string" ? v.trim() : ""`. -/
def strField (o : List (String × JsVal)) (k : String) : String :=
  match getField o k with
  | some (JsVal.str s) => jsTrim s
  | _ => ""

/-- The handoff-intent field: kept only when it is exactly one of the
three expected strings, otherwise `"none"`. -/
def intentField (o : List (String × JsVal)) : String :=
  match getField o "handoff_intent" with
  | some (JsVal.str s) =>
    if s = "price" ∨ s = "visit" ∨ s = "none" then s else "none"
  | _ => "none"

/-- The `Decision` the source builds from a parsed object. -/
def decisionOfObj (o : List (String × JsVal)) : Decision :=
  { reply := strField o "reply"
    name := strField o "name"
    zone := strField o "zone"
    intentSummary := strField o "intentSummary"
    handoff_intent := intentField o }

/-- The opening-brace character, written via its code point. -/
def lbrace : Char := '\x7b'

/-- The closing-brace character, written via its code point. -/
def rbrace : Char := '\x7d'

/-- The substring the source hands to `JSON.parse`: from the first
opening brace (via `indexOf`) through the last closing brace (via
`lastIndexOf`), inclusive; `none` exactly when the source throws
`ai_output_not_json`, i.e. when there is no opening brace or no closing
brace after the first opening one. -/
def braceSliceL (cs : List Char) : Option (List Char) :=
  match splitFirst lbrace cs with
  | none => none
  | some (_, rest) =>
    match splitFirst rbrace rest.reverse with
    | none => none
    | some (_, rmid) => some (lbrace :: (rmid.reverse ++ [rbrace]))

/-- The whole response-decoding tail of `aiDecideAndReply`, with
`JSON.parse` abstracted as `jsonParse`; `none` is a soft failure that
the caller's `catch` turns into a retry or the deterministic
fallback. -/
def aiDecodeOutput (raw : String) (jsonParse : List Char → Option (List (String × JsVal))) :
    Option Decision :=
  match braceSliceL (jsTrim raw).data with
  | none => none
  | some sub => (jsonParse sub).map decisionOfObj

/-! ### Scheduling model of the `/whatsapp` handler

On each inbound request the handler runs synchronously (appending the
inbound message in arrival order) and then starts `processInbound` as a
background task with only a `.catch` attached — there is no map from the
conversation key to a promise chain, so the only ordering constraints
the code imposes are: requests are handled in arrival order, and each
background task executes its own awaited segments in program order after
its request arrived.  A schedule is any interleaving satisfying exactly
those constraints. -/

/-- A background processing task: the conversation key it belongs to and
how many atomic segments (code between awaits) it executes. -/
structure TaskSpec where
  key : String
  nSteps : Nat
deriving Repr, DecidableEq

/-- Instances of `Inhabited` for out-of-range reads in the checker. -/
instance : Inhabited TaskSpec := ⟨⟨"", 0⟩⟩

/-- One scheduled occurrence: the synchronous handling of request `i`
(`arrive i`), or segment `k` of request `i`'s background task
(`work i k`). -/
inductive SLabel where
  | arrive (i : Nat)
  | work (i : Nat) (k : Nat)
deriving Repr, DecidableEq

/-- Run a schedule against the constraints the handler code imposes:
requests arrive in order (`a` counts arrivals so far), and each task's
segments run in program order (`prog` holds each task's next segment),
only after the task's own request arrived.  No constraint relates two
different tasks — that is precisely the absence of a per-key queue in
the source.  Returns the final state, or `none` for an impossible
schedule. -/
def schedRun (ts : List TaskSpec) : Nat → List Nat → List SLabel → Option (Nat × List Nat)
  | a, prog, [] => some (a, prog)
  | a, prog, SLabel.arrive i :: rest =>
    if i = a ∧ a < ts.length then schedRun ts (a + 1) prog rest else none
  | a, prog, SLabel.work i k :: rest =>
    if i < a ∧ k = prog.getD i 0 ∧ k < (ts.getD i default).nSteps then
      schedRun ts a (prog.set i (k + 1)) rest
    else none

/-- A schedule the handler's constraints allow, starting from no
arrivals and no progress. -/
def schedOk (ts : List TaskSpec) (sched : List SLabel) : Bool :=
  (schedRun ts 0 (List.replicate ts.length 0) sched).isSome

/-- Every label a full run of all tasks must contain. -/
def allLabels (ts : List TaskSpec) : List SLabel :=
  (List.range ts.length).map SLabel.arrive ++
    (List.range ts.length).flatMap
      (fun i => (List.range (ts.getD i default).nSteps).map (SLabel.work i))

/-- A complete schedule: allowed by the handler's constraints and
containing every arrival and every task segment. -/
def completeSchedule (ts : List TaskSpec) (sched : List SLabel) : Bool :=
  schedOk ts sched && (allLabels ts).all (fun l => sched.contains l)

/-- Does `l1` occur strictly before `l2` in the schedule?  (Labels occur
at most once in the schedules considered.) -/
def occursBefore (l1 l2 : SLabel) : List SLabel → Bool
  | [] => false
  | x :: xs => if x = l1 then xs.contains l2 else occursBefore l1 l2 xs

/-- The segments of task `i`. -/
def worksOf (ts : List TaskSpec) (i : Nat) : List SLabel :=
  (List.range (ts.getD i default).nSteps).map (SLabel.work i)

/-- The per-key serialization the design document claims: for any two
tasks on the same key, every segment of the earlier-arrived task occurs
before every segment of the later one (no concurrency, FIFO
completion). -/
def serialFIFO (ts : List TaskSpec) (sched : List SLabel) : Bool :=
  (List.range ts.length).all fun i =>
    (List.range ts.length).all fun j =>
      if i < j ∧ (ts.getD i default).key = (ts.getD j default).key then
        (worksOf ts i).all fun a => (worksOf ts j).all fun b => occursBefore a b sched
      else true

/-- Do the arrivals in a schedule occur consecutively starting at `a`?
This is the arrival-order guarantee the synchronous handler part gives. -/
def arrivalsConsecutive : Nat → List SLabel → Bool
  | _, [] => true
  | a, SLabel.arrive i :: rest => i = a && arrivalsConsecutive (a + 1) rest
  | a, SLabel.work _ _ :: rest => arrivalsConsecutive a rest

/-! ### Lemma bank: effect observations -/

theorem strData_append (s t : String) : (s ++ t).data = s.data ++ t.data := by
  cases s; cases t; rfl

theorem aiCalls_nil : aiCalls [] = [] := rfl

theorem aiCalls_append (a b : List Effect) : aiCalls (a ++ b) = aiCalls a ++ aiCalls b :=
  List.filter_append ..

theorem aiCalls_sendWhatsApp (cfg : Config) (d b : String) :
    aiCalls (sendWhatsApp cfg d b) = [] := by
  unfold sendWhatsApp
  split
  · rfl
  · split <;> rfl

theorem snapshotCount_nil : snapshotCount [] = 0 := rfl

theorem snapshotCount_append (a b : List Effect) :
    snapshotCount (a ++ b) = snapshotCount a + snapshotCount b := by
  unfold snapshotCount
  rw [List.filter_append, List.length_append]

theorem snapshotCount_sendWhatsApp (cfg : Config) (d b : String) :
    snapshotCount (sendWhatsApp cfg d b) = 0 := by
  unfold sendWhatsApp
  split
  · rfl
  · split <;> rfl

theorem forwardCount_append (a b : List Effect) :
    forwardCount (a ++ b) = forwardCount a + forwardCount b := by
  unfold forwardCount
  rw [List.filter_append, List.length_append]

theorem forwardCount_sendWhatsApp_le (cfg : Config) (d b : String) :
    forwardCount (sendWhatsApp cfg d b) ≤ 1 := by
  unfold sendWhatsApp
  split
  · decide
  · split
    · decide
    · unfold forwardCount
      simp only [List.filter]
      split
      · simp
      · simp

theorem forwardCount_sendWhatsApp_dev (cfg : Config) (d b : String)
    (h : cfg.devMode = true) : forwardCount (sendWhatsApp cfg d b) = 0 := by
  simp [sendWhatsApp, h, forwardCount]

theorem ackReply_head (lead : Lead) : (ackReply lead).data.head? = some '¡' := by
  unfold ackReply
  rw [strData_append, strData_append]
  rw [show ("¡Gracias").data = '¡' :: ("Gracias").data from by decide]
  rfl

theorem isForwardNotice_ack (d : String) (lead : Lead) :
    isForwardNotice (Effect.send d (ackReply lead)) = false := by
  simp [isForwardNotice, ackReply_head]

theorem forwardBody_head (lead : Lead) (inc : String) :
    (forwardBody lead inc).data.head? = some '📩' := by
  unfold forwardBody
  rw [strData_append]
  rw [show fwdMarker.data = '📩' :: (" Mensaje después del handoff\n").data from by decide]
  rfl

theorem isForwardNotice_forwardBody (d : String) (lead : Lead) (inc : String) :
    isForwardNotice (Effect.send d (forwardBody lead inc)) = true := by
  simp [isForwardNotice, forwardBody_head]

theorem forwardCount_sendWhatsApp_ack (cfg : Config) (d : String) (lead : Lead) :
    forwardCount (sendWhatsApp cfg d (ackReply lead)) = 0 := by
  unfold sendWhatsApp
  split
  · rfl
  · split
    · rfl
    · unfold forwardCount
      simp [List.filter, isForwardNotice_ack]

/-! ### Lemma bank: message-log bookkeeping -/

theorem filter_bot_of_system (tail : List Msg) (h : ∀ m ∈ tail, m.origin = "system") :
    tail.filter (fun m => m.origin = "bot") = [] := by
  induction tail with
  | nil => rfl
  | cons m ms ih =>
    have hm := h m (by simp)
    have hms : ∀ x ∈ ms, x.origin = "system" := fun x hx => h x (by simp [hx])
    simp [List.filter, hm, ih hms]

theorem botTexts_single (lead l2 : Lead) (ts t : String)
    (h : l2.messages = lead.messages ++ [⟨ts, "bot", t⟩]) : botTexts lead l2 = [t] := by
  unfold botTexts newMessages
  rw [h, List.drop_left]
  simp [List.filter]

theorem botTexts_bot_then_system (lead l2 : Lead) (ts t : String) (tail : List Msg)
    (h : l2.messages = lead.messages ++ (Msg.mk ts "bot" t :: tail))
    (htail : ∀ m ∈ tail, m.origin = "system") : botTexts lead l2 = [t] := by
  unfold botTexts newMessages
  rw [h, List.drop_left]
  simp [List.filter, filter_bot_of_system tail htail]

/-! ### Lemma bank: the handoff notifier -/

theorem doHandoff_noop (cfg : Config) (ev : Ev) (lead : Lead) (inc tag : String)
    (h : lead.handedOff = true) : doHandoff cfg ev lead inc tag = (lead, []) := by
  unfold doHandoff
  rw [if_pos h]

theorem doHandoff_handedOff (cfg : Config) (ev : Ev) (lead : Lead) (inc tag : String) :
    (doHandoff cfg ev lead inc tag).1.handedOff = true := by
  unfold doHandoff
  split
  · assumption
  · split <;> rfl

theorem doHandoff_name (cfg : Config) (ev : Ev) (lead : Lead) (inc tag : String) :
    (doHandoff cfg ev lead inc tag).1.name = lead.name := by
  unfold doHandoff
  split
  · rfl
  · split <;> rfl

theorem doHandoff_zone (cfg : Config) (ev : Ev) (lead : Lead) (inc tag : String) :
    (doHandoff cfg ev lead inc tag).1.zone = lead.zone := by
  unfold doHandoff
  split
  · rfl
  · split <;> rfl

theorem doHandoff_intentSummary (cfg : Config) (ev : Ev) (lead : Lead) (inc tag : String) :
    (doHandoff cfg ev lead inc tag).1.intentSummary = lead.intentSummary := by
  unfold doHandoff
  split
  · rfl
  · split <;> rfl

theorem doHandoff_pending (cfg : Config) (ev : Ev) (lead : Lead) (inc tag : String) :
    (doHandoff cfg ev lead inc tag).1.pendingHandoff = lead.pendingHandoff := by
  unfold doHandoff
  split
  · rfl
  · split <;> rfl

theorem doHandoff_messages (cfg : Config) (ev : Ev) (lead : Lead) (inc tag : String) :
    (doHandoff cfg ev lead inc tag).1.messages = lead.messages ∨
    ∃ txt, (doHandoff cfg ev lead inc tag).1.messages =
      lead.messages ++ [Msg.mk ev.nowIso "system" txt] := by
  unfold doHandoff
  split
  · exact Or.inl rfl
  · split
    · exact Or.inr ⟨_, rfl⟩
    · exact Or.inl rfl

theorem doHandoff_snapshots (cfg : Config) (ev : Ev) (lead : Lead) (inc tag : String) :
    snapshotCount (doHandoff cfg ev lead inc tag).2 =
      (if lead.handedOff then 0 else 1) := by
  unfold doHandoff
  split
  · rfl
  · split
    · simp [snapshotCount, List.filter, isSnapshotEff]
    · rw [snapshotCount_append]
      rw [show snapshotCount [Effect.snapshot tag, Effect.convWrite] = 1 from by
        simp [snapshotCount, List.filter, isSnapshotEff]]
      split
      · rfl
      · rw [snapshotCount_sendWhatsApp]

theorem doHandoff_aiCalls (cfg : Config) (ev : Ev) (lead : Lead) (inc tag : String) :
    aiCalls (doHandoff cfg ev lead inc tag).2 = [] := by
  unfold doHandoff
  split
  · rfl
  · split
    · rfl
    · rw [aiCalls_append]
      rw [show aiCalls [Effect.snapshot tag, Effect.convWrite] = [] from rfl]
      split
      · rfl
      · rw [aiCalls_sendWhatsApp]
        rfl


/-! ### Branch equations for `afterDecision` and `processInbound` -/

theorem afterDecision_none (cfg : Config) (ev : Ev) (inc : String) (out : Decision)
    (lead : Lead) (h : activeTypeOf lead out = none) :
    afterDecision cfg ev inc out lead =
      (appendMessage (mergeFields lead out) ev.nowIso "bot"
         (if jsTrim out.reply ≠ "" then jsTrim out.reply else helloReply),
       [Effect.convWrite, Effect.convWrite] ++
         sendWhatsApp cfg ev.source (if jsTrim out.reply ≠ "" then jsTrim out.reply else helloReply)) := by
  simp only [afterDecision, h]

theorem afterDecision_notReady (cfg : Config) (ev : Ev) (inc : String) (out : Decision)
    (lead : Lead) (t : String) (hA : activeTypeOf lead out = some t)
    (hR : readyOf (mergeFields lead out) = false) :
    afterDecision cfg ev inc out lead =
      (let l1 :=
        if (mergeFields lead out).pendingHandoff.isNone then
          { mergeFields lead out with pendingHandoff := some ⟨t, ev.nowIso⟩ }
        else mergeFields lead out
       (appendMessage l1 ev.nowIso "bot"
          (if jsTrim out.reply ≠ "" then jsTrim out.reply else askMissingForHandoff l1),
        [Effect.convWrite, Effect.convWrite] ++
          sendWhatsApp cfg ev.source
            (if jsTrim out.reply ≠ "" then jsTrim out.reply else askMissingForHandoff l1))) := by
  simp only [afterDecision, hA, hR, Bool.false_eq_true, if_false]

theorem afterDecision_ready (cfg : Config) (ev : Ev) (inc : String) (out : Decision)
    (lead : Lead) (t : String) (hA : activeTypeOf lead out = some t)
    (hR : readyOf (mergeFields lead out) = true) :
    afterDecision cfg ev inc out lead =
      (let l2 := { appendMessage (mergeFields lead out) ev.nowIso "bot"
                     (confirmReply (mergeFields lead out)) with pendingHandoff := none }
       ((doHandoff cfg ev l2 inc t).1,
        [Effect.convWrite, Effect.convWrite] ++
          sendWhatsApp cfg ev.source (confirmReply (mergeFields lead out)) ++
          [Effect.convWrite] ++ (doHandoff cfg ev l2 inc t).2)) := by
  simp only [afterDecision, hA, if_pos hR]

theorem processInbound_post (cfg : Config) (ev : Ev) (lead : Lead)
    (h : lead.handedOff = true) :
    processInbound cfg ev lead =
      (appendMessage lead ev.nowIso "bot" (ackReply lead),
       [Effect.convWrite] ++ sendWhatsApp cfg ev.source (ackReply lead) ++
         (if cfg.devMode = false ∧ cfg.handoffTo ≠ "" then
           sendWhatsApp cfg cfg.handoffTo
             (forwardBody (appendMessage lead ev.nowIso "bot" (ackReply lead)) (jsTrim ev.body))
          else [])) := by
  simp only [processInbound, if_pos h]

theorem processInbound_greeting_pending (cfg : Config) (ev : Ev) (lead : Lead) (t : String)
    (h1 : lead.handedOff = false) (h2 : isTrivialGreeting (jsTrim ev.body) = true)
    (h3 : pendingTypeOf lead = some t) :
    processInbound cfg ev lead =
      (appendMessage lead ev.nowIso "bot" (askMissingForHandoff lead),
       [Effect.convWrite] ++ sendWhatsApp cfg ev.source (askMissingForHandoff lead)) := by
  simp only [processInbound, h1, if_pos h2, h3, Bool.false_eq_true, if_false]

theorem processInbound_greeting_fresh (cfg : Config) (ev : Ev) (lead : Lead)
    (h1 : lead.handedOff = false) (h2 : isTrivialGreeting (jsTrim ev.body) = true)
    (h3 : pendingTypeOf lead = none) :
    processInbound cfg ev lead =
      (appendMessage lead ev.nowIso "bot" helloReply,
       [Effect.convWrite] ++ sendWhatsApp cfg ev.source helloReply) := by
  simp only [processInbound, h1, if_pos h2, h3, Bool.false_eq_true, if_false]

theorem processInbound_dec1 (cfg : Config) (ev : Ev) (lead : Lead) (out : Decision)
    (h1 : lead.handedOff = false) (h2 : isTrivialGreeting (jsTrim ev.body) = false)
    (h3 : ev.o1 = some out) :
    processInbound cfg ev lead =
      ((afterDecision cfg ev (jsTrim ev.body) out lead).1,
       Effect.aiCall cfg.modelMain 8 6500 :: (afterDecision cfg ev (jsTrim ev.body) out lead).2) := by
  simp only [processInbound, h1, h2, h3]
  rfl

theorem processInbound_dec2 (cfg : Config) (ev : Ev) (lead : Lead) (out : Decision)
    (h1 : lead.handedOff = false) (h2 : isTrivialGreeting (jsTrim ev.body) = false)
    (h3 : ev.o1 = none) (h4 : ev.o2 = some out) :
    processInbound cfg ev lead =
      ((afterDecision cfg ev (jsTrim ev.body) out lead).1,
       Effect.aiCall cfg.modelMain 8 6500 :: Effect.aiCall cfg.modelRetry 4 4500 ::
         (afterDecision cfg ev (jsTrim ev.body) out lead).2) := by
  simp only [processInbound, h1, h2, h3, h4]
  rfl

theorem processInbound_fail (cfg : Config) (ev : Ev) (lead : Lead)
    (h1 : lead.handedOff = false) (h2 : isTrivialGreeting (jsTrim ev.body) = false)
    (h3 : ev.o1 = none) (h4 : ev.o2 = none) :
    processInbound cfg ev lead =
      (appendMessage lead ev.nowIso "bot" (fallbackReply lead),
       Effect.aiCall cfg.modelMain 8 6500 :: Effect.aiCall cfg.modelRetry 4 4500 ::
         Effect.convWrite :: sendWhatsApp cfg ev.source (fallbackReply lead)) := by
  simp only [processInbound, h1, h2, h3, h4]
  rfl

/-! ### C1: fields required for a handoff -/

theorem afterDecision_handoff_fields (cfg : Config) (ev : Ev) (inc : String)
    (out : Decision) (lead : Lead) (h : lead.handedOff = false)
    (h2 : (afterDecision cfg ev inc out lead).1.handedOff = true) :
    (afterDecision cfg ev inc out lead).1.name ≠ "" ∧
    (afterDecision cfg ev inc out lead).1.zone ≠ "" ∧
    (afterDecision cfg ev inc out lead).1.intentSummary ≠ "" := by
  cases hA : activeTypeOf lead out with
  | none =>
    rw [afterDecision_none cfg ev inc out lead hA] at h2
    simp [appendMessage, mergeFields, h] at h2
  | some t =>
    cases hR : readyOf (mergeFields lead out) with
    | false =>
      rw [afterDecision_notReady cfg ev inc out lead t hA hR] at h2
      split at h2 <;> simp [appendMessage, mergeFields, h] at h2
    | true =>
      rw [afterDecision_ready cfg ev inc out lead t hA hR]
      simp only [appendMessage, doHandoff_name, doHandoff_zone, doHandoff_intentSummary]
      simp only [readyOf, decide_eq_true_eq] at hR
      exact ⟨hR.2.1, hR.2.2, hR.1⟩

/-- Configuration used by the C1 instances: DEV_MODE deployment with an
operator destination configured. -/
def cfg1 : Config := ⟨true, "whatsapp:+5491122334455", "gpt-5-mini", "gpt-5-nano"⟩

/-- A fresh conversation for the C1 instances. -/
def lead1 : Lead := freshLead "5493411234567" "2025-01-01T00:00:00.000Z"

/-- A decision whose extraction fills name, zone and intent and whose
intent is an explicit visit request. -/
def dec1 : Decision :=
  ⟨"¡Genial!", "Ana", "Fisherton", "Cortinas roller para el living", "visit"⟩

/-- The inbound event carrying `dec1` as the primary provider answer. -/
def ev1 : Ev :=
  ⟨"Quiero coordinar una visita para medición", "whatsapp:+5493411234567",
   "2025-01-01T00:00:05.000Z", "20250101_000005", some dec1, none⟩

/-- C1: the claim is false as stated.  A conversation with name, zone
and intentSummary extracted — but with availability empty, since the
code tracks no availability at all — transitions to `handedOff = true`
with handoff type `visit`.  The claim's additional availability
requirement for visit handoffs does not exist in the code. -/
theorem C1_counterexample :
    lead1.handedOff = false ∧
    (processInbound cfg1 ev1 lead1).1.handedOff = true ∧
    Effect.snapshot "visit" ∈ (processInbound cfg1 ev1 lead1).2 ∧
    availabilityOf (processInbound cfg1 ev1 lead1).1 = "" := by
  decide

/-- C1 (amended): for every conversation and processed inbound message,
the conversation transitions from `handedOff = false` to
`handedOff = true` only if name, zone and intentSummary are all
non-empty — for both handoff types; no availability field exists or is
required. -/
theorem C1_handoff_requires_fields (cfg : Config) (ev : Ev) (lead : Lead)
    (h : lead.handedOff = false)
    (h2 : (processInbound cfg ev lead).1.handedOff = true) :
    (processInbound cfg ev lead).1.name ≠ "" ∧
    (processInbound cfg ev lead).1.zone ≠ "" ∧
    (processInbound cfg ev lead).1.intentSummary ≠ "" := by
  by_cases hg : isTrivialGreeting (jsTrim ev.body) = true
  · cases hp : pendingTypeOf lead with
    | some t =>
      rw [processInbound_greeting_pending cfg ev lead t h hg hp] at h2
      simp [appendMessage, h] at h2
    | none =>
      rw [processInbound_greeting_fresh cfg ev lead h hg hp] at h2
      simp [appendMessage, h] at h2
  · rw [Bool.not_eq_true] at hg
    cases ho1 : ev.o1 with
    | some out =>
      rw [processInbound_dec1 cfg ev lead out h hg ho1] at h2 ⊢
      exact afterDecision_handoff_fields cfg ev (jsTrim ev.body) out lead h h2
    | none =>
      cases ho2 : ev.o2 with
      | some out =>
        rw [processInbound_dec2 cfg ev lead out h hg ho1 ho2] at h2 ⊢
        exact afterDecision_handoff_fields cfg ev (jsTrim ev.body) out lead h h2
      | none =>
        rw [processInbound_fail cfg ev lead h hg ho1 ho2] at h2
        simp [appendMessage, h] at h2

/-- C1 (witness): the amended theorem applied at the concrete `ev1`
run, whose handoff indeed has all three fields populated. -/
theorem C1_handoff_requires_fields_witness :
    lead1.handedOff = false ∧
    (processInbound cfg1 ev1 lead1).1.handedOff = true ∧
    ((processInbound cfg1 ev1 lead1).1.name ≠ "" ∧
     (processInbound cfg1 ev1 lead1).1.zone ≠ "" ∧
     (processInbound cfg1 ev1 lead1).1.intentSummary ≠ "") :=
  ⟨by decide, by decide,
   C1_handoff_requires_fields cfg1 ev1 lead1 (by decide) (by decide)⟩

/-! ### C2: at-most-once handoff -/

theorem snapshotCount_cons_conv (e : List Effect) :
    snapshotCount (Effect.convWrite :: e) = snapshotCount e := rfl

theorem snapshotCount_cons_ai (m : String) (n k : Nat) (e : List Effect) :
    snapshotCount (Effect.aiCall m n k :: e) = snapshotCount e := rfl

theorem snapshotCount_cons_send (d b : String) (e : List Effect) :
    snapshotCount (Effect.send d b :: e) = snapshotCount e := rfl

theorem afterDecision_snap (cfg : Config) (ev : Ev) (inc : String) (out : Decision)
    (lead : Lead) :
    snapshotCount (afterDecision cfg ev inc out lead).2 ≤ 1 ∧
    ((afterDecision cfg ev inc out lead).1.handedOff = false →
      snapshotCount (afterDecision cfg ev inc out lead).2 = 0) := by
  cases hA : activeTypeOf lead out with
  | none =>
    rw [afterDecision_none cfg ev inc out lead hA]
    refine ⟨?_, fun _ => ?_⟩ <;>
      simp [snapshotCount_append, snapshotCount_sendWhatsApp, snapshotCount_cons_conv,
        snapshotCount_nil]
  | some t =>
    cases hR : readyOf (mergeFields lead out) with
    | false =>
      rw [afterDecision_notReady cfg ev inc out lead t hA hR]
      refine ⟨?_, fun _ => ?_⟩ <;>
        simp [snapshotCount_append, snapshotCount_sendWhatsApp, snapshotCount_cons_conv,
          snapshotCount_nil]
    | true =>
      rw [afterDecision_ready cfg ev inc out lead t hA hR]
      constructor
      · simp only [snapshotCount_append, snapshotCount_sendWhatsApp, snapshotCount_cons_conv,
          snapshotCount_nil, doHandoff_snapshots]
        split <;> simp
      · intro hf
        simp [doHandoff_handedOff] at hf

theorem processInbound_post_mono (cfg : Config) (ev : Ev) (lead : Lead)
    (h : lead.handedOff = true) : (processInbound cfg ev lead).1.handedOff = true := by
  rw [processInbound_post cfg ev lead h]
  exact h

theorem processInbound_post_snap0 (cfg : Config) (ev : Ev) (lead : Lead)
    (h : lead.handedOff = true) : snapshotCount (processInbound cfg ev lead).2 = 0 := by
  rw [processInbound_post cfg ev lead h]
  simp only [snapshotCount_append, snapshotCount_sendWhatsApp, snapshotCount_cons_conv,
    snapshotCount_nil]
  split
  · rw [snapshotCount_sendWhatsApp]
  · rfl

theorem processInbound_snap_le (cfg : Config) (ev : Ev) (lead : Lead) :
    snapshotCount (processInbound cfg ev lead).2 ≤ 1 := by
  by_cases h : lead.handedOff = true
  · rw [processInbound_post_snap0 cfg ev lead h]
    decide
  · rw [Bool.not_eq_true] at h
    by_cases hg : isTrivialGreeting (jsTrim ev.body) = true
    · cases hp : pendingTypeOf lead with
      | some t =>
        rw [processInbound_greeting_pending cfg ev lead t h hg hp]
        simp [snapshotCount_append, snapshotCount_sendWhatsApp, snapshotCount_cons_conv,
          snapshotCount_nil]
      | none =>
        rw [processInbound_greeting_fresh cfg ev lead h hg hp]
        simp [snapshotCount_append, snapshotCount_sendWhatsApp, snapshotCount_cons_conv,
          snapshotCount_nil]
    · rw [Bool.not_eq_true] at hg
      cases ho1 : ev.o1 with
      | some out =>
        rw [processInbound_dec1 cfg ev lead out h hg ho1]
        simp only [snapshotCount_cons_ai]
        exact (afterDecision_snap cfg ev (jsTrim ev.body) out lead).1
      | none =>
        cases ho2 : ev.o2 with
        | some out =>
          rw [processInbound_dec2 cfg ev lead out h hg ho1 ho2]
          simp only [snapshotCount_cons_ai]
          exact (afterDecision_snap cfg ev (jsTrim ev.body) out lead).1
        | none =>
          rw [processInbound_fail cfg ev lead h hg ho1 ho2]
          simp [snapshotCount_append, snapshotCount_sendWhatsApp, snapshotCount_cons_conv,
            snapshotCount_cons_ai, snapshotCount_nil]

theorem processInbound_snap0_of_false (cfg : Config) (ev : Ev) (lead : Lead)
    (h2 : (processInbound cfg ev lead).1.handedOff = false) :
    snapshotCount (processInbound cfg ev lead).2 = 0 := by
  by_cases h : lead.handedOff = true
  · exact absurd (processInbound_post_mono cfg ev lead h) (by simp [h2])
  · rw [Bool.not_eq_true] at h
    by_cases hg : isTrivialGreeting (jsTrim ev.body) = true
    · cases hp : pendingTypeOf lead with
      | some t =>
        rw [processInbound_greeting_pending cfg ev lead t h hg hp]
        simp [snapshotCount_append, snapshotCount_sendWhatsApp, snapshotCount_cons_conv,
          snapshotCount_nil]
      | none =>
        rw [processInbound_greeting_fresh cfg ev lead h hg hp]
        simp [snapshotCount_append, snapshotCount_sendWhatsApp, snapshotCount_cons_conv,
          snapshotCount_nil]
    · rw [Bool.not_eq_true] at hg
      cases ho1 : ev.o1 with
      | some out =>
        rw [processInbound_dec1 cfg ev lead out h hg ho1] at h2 ⊢
        simp only [snapshotCount_cons_ai]
        exact (afterDecision_snap cfg ev (jsTrim ev.body) out lead).2 h2
      | none =>
        cases ho2 : ev.o2 with
        | some out =>
          rw [processInbound_dec2 cfg ev lead out h hg ho1 ho2] at h2 ⊢
          simp only [snapshotCount_cons_ai]
          exact (afterDecision_snap cfg ev (jsTrim ev.body) out lead).2 h2
        | none =>
          rw [processInbound_fail cfg ev lead h hg ho1 ho2]
          simp [snapshotCount_append, snapshotCount_sendWhatsApp, snapshotCount_cons_conv,
            snapshotCount_cons_ai, snapshotCount_nil]

theorem webhookStep_snap_le (cfg : Config) (ev : Ev) (lead : Lead) :
    snapshotCount (webhookStep cfg ev lead).2 ≤ 1 := by
  simp only [webhookStep, snapshotCount_cons_conv]
  exact processInbound_snap_le cfg ev _

theorem webhookStep_mono (cfg : Config) (ev : Ev) (lead : Lead)
    (h : lead.handedOff = true) : (webhookStep cfg ev lead).1.handedOff = true := by
  simp only [webhookStep]
  exact processInbound_post_mono cfg ev _ h

theorem webhookStep_snap0_of_true (cfg : Config) (ev : Ev) (lead : Lead)
    (h : lead.handedOff = true) : snapshotCount (webhookStep cfg ev lead).2 = 0 := by
  simp only [webhookStep, snapshotCount_cons_conv]
  exact processInbound_post_snap0 cfg ev _ h

theorem webhookStep_snap0_of_false (cfg : Config) (ev : Ev) (lead : Lead)
    (h : (webhookStep cfg ev lead).1.handedOff = false) :
    snapshotCount (webhookStep cfg ev lead).2 = 0 := by
  simp only [webhookStep, snapshotCount_cons_conv]
  exact processInbound_snap0_of_false cfg ev _ h

theorem runTrace_snap (cfg : Config) (evs : List Ev) : ∀ lead : Lead,
    snapshotCount (runTrace cfg lead evs).2 ≤ 1 ∧
    (lead.handedOff = true → snapshotCount (runTrace cfg lead evs).2 = 0) := by
  induction evs with
  | nil =>
    intro lead
    exact ⟨Nat.zero_le 1, fun _ => rfl⟩
  | cons ev evs ih =>
    intro lead
    simp only [runTrace, snapshotCount_append]
    constructor
    · by_cases hl : (webhookStep cfg ev lead).1.handedOff = true
      · have h1 := webhookStep_snap_le cfg ev lead
        have h2 := (ih (webhookStep cfg ev lead).1).2 hl
        omega
      · rw [Bool.not_eq_true] at hl
        have h1 := webhookStep_snap0_of_false cfg ev lead hl
        have h2 := (ih (webhookStep cfg ev lead).1).1
        omega
    · intro h
      have hm := webhookStep_mono cfg ev lead h
      have h0 := webhookStep_snap0_of_true cfg ev lead h
      have h2 := (ih (webhookStep cfg ev lead).1).2 hm
      omega

/-- C2: for every conversation and every whole trace of processed
inbound messages, the handoff notifier fires at most once — snapshot
writes happen only inside `doHandoff`, their count over any trace is at
most 1, it is 0 whenever the conversation was already handed off, and
`doHandoff` itself is a no-op (same state, no effects) on an already
handed-off conversation. -/
theorem C2_at_most_once (cfg : Config) (lead : Lead) (evs : List Ev) :
    snapshotCount (runTrace cfg lead evs).2 ≤ 1 ∧
    (lead.handedOff = true → snapshotCount (runTrace cfg lead evs).2 = 0) ∧
    (∀ (ev : Ev) (inc tag : String), lead.handedOff = true →
      doHandoff cfg ev lead inc tag = (lead, [])) :=
  ⟨(runTrace_snap cfg evs lead).1, (runTrace_snap cfg evs lead).2,
   fun ev inc tag h => doHandoff_noop cfg ev lead inc tag h⟩

/-- Configuration used by the C2 witness. -/
def cfg2 : Config := ⟨true, "whatsapp:+5491122334455", "gpt-5-mini", "gpt-5-nano"⟩

/-- An already-handed-off conversation for the C2 witness. -/
def lead2 : Lead :=
  { phone := "5493411234567", name := "Ana", zone := "Fisherton",
    intentSummary := "Cortinas roller", messages := [],
    createdAt := "2025-01-01T00:00:00.000Z", handedOff := true,
    pendingHandoff := none }

/-- A qualifying event arriving after the handoff, for the C2 witness. -/
def ev2 : Ev :=
  ⟨"Necesito presupuesto urgente", "whatsapp:+5493411234567",
   "2025-01-01T00:10:00.000Z", "20250101_001000",
   some ⟨"ok", "", "", "", "price"⟩, none⟩

/-- C2 (witness): on a concrete already-handed-off conversation the
trace of one further qualifying message produces no snapshot at all. -/
theorem C2_at_most_once_witness :
    snapshotCount (runTrace cfg2 lead2 [ev2]).2 ≤ 1 ∧
    snapshotCount (runTrace cfg2 lead2 [ev2]).2 = 0 ∧
    doHandoff cfg2 ev2 lead2 "x" "price" = (lead2, []) :=
  ⟨(C2_at_most_once cfg2 lead2 [ev2]).1,
   (C2_at_most_once cfg2 lead2 [ev2]).2.1 (by decide),
   (C2_at_most_once cfg2 lead2 [ev2]).2.2 ev2 "x" "price" (by decide)⟩

/-! ### C6: first non-empty value wins -/

theorem mergeFields_keep_name (lead : Lead) (out : Decision) (h : lead.name ≠ "") :
    (mergeFields lead out).name = lead.name := by
  simp [mergeFields, h]

theorem mergeFields_keep_zone (lead : Lead) (out : Decision) (h : lead.zone ≠ "") :
    (mergeFields lead out).zone = lead.zone := by
  simp [mergeFields, h]

theorem mergeFields_keep_intent (lead : Lead) (out : Decision) (h : lead.intentSummary ≠ "") :
    (mergeFields lead out).intentSummary = lead.intentSummary := by
  simp [mergeFields, h]

theorem afterDecision_fields (cfg : Config) (ev : Ev) (inc : String) (out : Decision)
    (lead : Lead) :
    (afterDecision cfg ev inc out lead).1.name = (mergeFields lead out).name ∧
    (afterDecision cfg ev inc out lead).1.zone = (mergeFields lead out).zone ∧
    (afterDecision cfg ev inc out lead).1.intentSummary = (mergeFields lead out).intentSummary := by
  cases hA : activeTypeOf lead out with
  | none =>
    rw [afterDecision_none cfg ev inc out lead hA]
    exact ⟨rfl, rfl, rfl⟩
  | some t =>
    cases hR : readyOf (mergeFields lead out) with
    | false =>
      rw [afterDecision_notReady cfg ev inc out lead t hA hR]
      refine ⟨?_, ?_, ?_⟩ <;> (split <;> rfl)
    | true =>
      rw [afterDecision_ready cfg ev inc out lead t hA hR]
      simp only [doHandoff_name, doHandoff_zone, doHandoff_intentSummary, appendMessage]
      exact ⟨trivial, trivial, trivial⟩

theorem processInbound_fields_mono (cfg : Config) (ev : Ev) (lead : Lead) :
    (lead.name ≠ "" → (processInbound cfg ev lead).1.name = lead.name) ∧
    (lead.zone ≠ "" → (processInbound cfg ev lead).1.zone = lead.zone) ∧
    (lead.intentSummary ≠ "" →
      (processInbound cfg ev lead).1.intentSummary = lead.intentSummary) := by
  by_cases h : lead.handedOff = true
  · rw [processInbound_post cfg ev lead h]
    exact ⟨fun _ => rfl, fun _ => rfl, fun _ => rfl⟩
  · rw [Bool.not_eq_true] at h
    by_cases hg : isTrivialGreeting (jsTrim ev.body) = true
    · cases hp : pendingTypeOf lead with
      | some t =>
        rw [processInbound_greeting_pending cfg ev lead t h hg hp]
        exact ⟨fun _ => rfl, fun _ => rfl, fun _ => rfl⟩
      | none =>
        rw [processInbound_greeting_fresh cfg ev lead h hg hp]
        exact ⟨fun _ => rfl, fun _ => rfl, fun _ => rfl⟩
    · rw [Bool.not_eq_true] at hg
      cases ho1 : ev.o1 with
      | some out =>
        rw [processInbound_dec1 cfg ev lead out h hg ho1]
        have hf := afterDecision_fields cfg ev (jsTrim ev.body) out lead
        exact ⟨fun hn => by rw [hf.1, mergeFields_keep_name lead out hn],
               fun hz => by rw [hf.2.1, mergeFields_keep_zone lead out hz],
               fun hi => by rw [hf.2.2, mergeFields_keep_intent lead out hi]⟩
      | none =>
        cases ho2 : ev.o2 with
        | some out =>
          rw [processInbound_dec2 cfg ev lead out h hg ho1 ho2]
          have hf := afterDecision_fields cfg ev (jsTrim ev.body) out lead
          exact ⟨fun hn => by rw [hf.1, mergeFields_keep_name lead out hn],
                 fun hz => by rw [hf.2.1, mergeFields_keep_zone lead out hz],
                 fun hi => by rw [hf.2.2, mergeFields_keep_intent lead out hi]⟩
        | none =>
          rw [processInbound_fail cfg ev lead h hg ho1 ho2]
          exact ⟨fun _ => rfl, fun _ => rfl, fun _ => rfl⟩

theorem runTrace_fields (cfg : Config) (evs : List Ev) : ∀ lead : Lead,
    (lead.name ≠ "" → (runTrace cfg lead evs).1.name = lead.name) ∧
    (lead.zone ≠ "" → (runTrace cfg lead evs).1.zone = lead.zone) ∧
    (lead.intentSummary ≠ "" →
      (runTrace cfg lead evs).1.intentSummary = lead.intentSummary) := by
  induction evs with
  | nil =>
    intro lead
    exact ⟨fun _ => rfl, fun _ => rfl, fun _ => rfl⟩
  | cons ev evs ih =>
    intro lead
    simp only [runTrace]
    have hstep := processInbound_fields_mono cfg ev
      (appendMessage lead ev.nowIso "lead" (jsTrim ev.body))
    have htail := ih (webhookStep cfg ev lead).1
    refine ⟨fun hn => ?_, fun hz => ?_, fun hi => ?_⟩
    · have h1 : (webhookStep cfg ev lead).1.name = lead.name := hstep.1 hn
      rw [show (runTrace cfg (webhookStep cfg ev lead).1 evs).1.name =
            (webhookStep cfg ev lead).1.name from htail.1 (by rw [h1]; exact hn), h1]
    · have h1 : (webhookStep cfg ev lead).1.zone = lead.zone := hstep.2.1 hz
      rw [show (runTrace cfg (webhookStep cfg ev lead).1 evs).1.zone =
            (webhookStep cfg ev lead).1.zone from htail.2.1 (by rw [h1]; exact hz), h1]
    · have h1 : (webhookStep cfg ev lead).1.intentSummary = lead.intentSummary := hstep.2.2 hi
      rw [show (runTrace cfg (webhookStep cfg ev lead).1 evs).1.intentSummary =
            (webhookStep cfg ev lead).1.intentSummary from htail.2.2 (by rw [h1]; exact hi), h1]

/-- C6: over any trace of processed messages, each of `name`, `zone`
and `intentSummary` is written at most once — once non-empty, no later
decision changes or erases it (the step-4 merge only assigns a field
when it is still empty and the incoming value is non-empty). -/
theorem C6_write_once (cfg : Config) (lead : Lead) (evs : List Ev) :
    (lead.name ≠ "" → (runTrace cfg lead evs).1.name = lead.name) ∧
    (lead.zone ≠ "" → (runTrace cfg lead evs).1.zone = lead.zone) ∧
    (lead.intentSummary ≠ "" →
      (runTrace cfg lead evs).1.intentSummary = lead.intentSummary) :=
  runTrace_fields cfg evs lead

/-- Configuration used by the C6 witness. -/
def cfg6 : Config := ⟨true, "whatsapp:+5491122334455", "gpt-5-mini", "gpt-5-nano"⟩

/-- A conversation with all three fields already populated. -/
def lead6 : Lead :=
  { phone := "5493411234567", name := "Ana", zone := "Fisherton",
    intentSummary := "Cortinas roller", messages := [],
    createdAt := "2025-01-01T00:00:00.000Z", handedOff := false,
    pendingHandoff := none }

/-- An event whose decision tries to overwrite every field. -/
def ev6 : Ev :=
  ⟨"Me llamo Pedro y estoy en Centro", "whatsapp:+5493411234567",
   "2025-01-01T00:10:00.000Z", "20250101_001000",
   some ⟨"ok", "Pedro", "Centro", "Toldos para patio", "none"⟩, none⟩

/-- C6 (witness): the populated fields survive a decision that carries
different values for all of them. -/
theorem C6_write_once_witness :
    (runTrace cfg6 lead6 [ev6]).1.name = lead6.name ∧
    (runTrace cfg6 lead6 [ev6]).1.zone = lead6.zone ∧
    (runTrace cfg6 lead6 [ev6]).1.intentSummary = lead6.intentSummary :=
  ⟨(C6_write_once cfg6 lead6 [ev6]).1 (by decide),
   (C6_write_once cfg6 lead6 [ev6]).2.1 (by decide),
   (C6_write_once cfg6 lead6 [ev6]).2.2 (by decide)⟩

/-! ### C4: timeout / retry / fallback policy -/

theorem aiCalls_cons_conv (e : List Effect) :
    aiCalls (Effect.convWrite :: e) = aiCalls e := rfl

theorem aiCalls_cons_send (d b : String) (e : List Effect) :
    aiCalls (Effect.send d b :: e) = aiCalls e := rfl

theorem aiCalls_cons_snap (t : String) (e : List Effect) :
    aiCalls (Effect.snapshot t :: e) = aiCalls e := rfl

theorem aiCalls_cons_ai (m : String) (n k : Nat) (e : List Effect) :
    aiCalls (Effect.aiCall m n k :: e) = Effect.aiCall m n k :: aiCalls e := rfl

theorem afterDecision_aiCalls (cfg : Config) (ev : Ev) (inc : String) (out : Decision)
    (lead : Lead) : aiCalls (afterDecision cfg ev inc out lead).2 = [] := by
  cases hA : activeTypeOf lead out with
  | none =>
    rw [afterDecision_none cfg ev inc out lead hA]
    simp [aiCalls_append, aiCalls_sendWhatsApp, aiCalls_cons_conv, aiCalls_nil]
  | some t =>
    cases hR : readyOf (mergeFields lead out) with
    | false =>
      rw [afterDecision_notReady cfg ev inc out lead t hA hR]
      simp [aiCalls_append, aiCalls_sendWhatsApp, aiCalls_cons_conv, aiCalls_nil]
    | true =>
      rw [afterDecision_ready cfg ev inc out lead t hA hR]
      simp [aiCalls_append, aiCalls_sendWhatsApp, aiCalls_cons_conv, aiCalls_nil,
        doHandoff_aiCalls]

theorem askMissingForHandoff_ne (lead : Lead) : askMissingForHandoff lead ≠ "" := by
  simp only [askMissingForHandoff]
  repeat' split
  all_goals decide

theorem fallbackReply_ne (lead : Lead) : fallbackReply lead ≠ "" := by
  cases h : pendingTypeOf lead with
  | some t =>
    simp only [fallbackReply, h]
    exact askMissingForHandoff_ne lead
  | none =>
    simp only [fallbackReply, h]
    decide

/-- C4: whenever the decision path is reached (conversation not handed
off, message not a trivial greeting), exactly one primary provider call
is made with the main model, an 8-message window and a 6500 ms deadline;
only if its oracle outcome is a failure is exactly one retry made, with
the fallback model, a 4-message window and the strictly shorter 4500 ms
deadline; if the retry also fails the provider is not called again and
the bot still records exactly one non-empty deterministic reply. -/
theorem C4_decision_resilience (cfg : Config) (ev : Ev) (lead : Lead)
    (h : lead.handedOff = false)
    (hg : isTrivialGreeting (jsTrim ev.body) = false) :
    aiCalls (processInbound cfg ev lead).2 =
      Effect.aiCall cfg.modelMain 8 6500 ::
        (if ev.o1.isSome then [] else [Effect.aiCall cfg.modelRetry 4 4500]) ∧
    4500 < 6500 ∧
    (ev.o1 = none → ev.o2 = none →
      botTexts lead (processInbound cfg ev lead).1 = [fallbackReply lead] ∧
      fallbackReply lead ≠ "") := by
  refine ⟨?_, by decide, ?_⟩
  · cases ho1 : ev.o1 with
    | some out =>
      rw [processInbound_dec1 cfg ev lead out h hg ho1]
      simp only [aiCalls_cons_ai, afterDecision_aiCalls, Option.isSome_some, if_true]
    | none =>
      cases ho2 : ev.o2 with
      | some out =>
        rw [processInbound_dec2 cfg ev lead out h hg ho1 ho2]
        simp only [aiCalls_cons_ai, afterDecision_aiCalls, Option.isSome_none,
          Bool.false_eq_true, if_false]
      | none =>
        rw [processInbound_fail cfg ev lead h hg ho1 ho2]
        simp only [aiCalls_cons_ai, aiCalls_cons_conv, aiCalls_sendWhatsApp,
          Option.isSome_none, Bool.false_eq_true, if_false]
  · intro h1 h2
    rw [processInbound_fail cfg ev lead h hg h1 h2]
    refine ⟨?_, fallbackReply_ne lead⟩
    exact botTexts_single lead _ ev.nowIso (fallbackReply lead) rfl

/-- Configuration used by the C4 witness. -/
def cfg4 : Config := ⟨true, "whatsapp:+5491122334455", "gpt-5-mini", "gpt-5-nano"⟩

/-- A fresh conversation for the C4 witness. -/
def lead4 : Lead := freshLead "5493411234567" "2025-01-01T00:00:00.000Z"

/-- An event on which both provider attempts fail. -/
def ev4 : Ev :=
  ⟨"Necesito cortinas para mi oficina en el centro", "whatsapp:+5493411234567",
   "2025-01-01T00:00:05.000Z", "20250101_000005", none, none⟩

/-- C4 (witness): on a concrete double-failure run the two calls are
made as specified and the deterministic non-empty fallback is the only
bot reply. -/
theorem C4_decision_resilience_witness :
    aiCalls (processInbound cfg4 ev4 lead4).2 =
      Effect.aiCall cfg4.modelMain 8 6500 ::
        (if ev4.o1.isSome then [] else [Effect.aiCall cfg4.modelRetry 4 4500]) ∧
    4500 < 6500 ∧
    (ev4.o1 = none → ev4.o2 = none →
      botTexts lead4 (processInbound cfg4 ev4 lead4).1 = [fallbackReply lead4] ∧
      fallbackReply lead4 ≠ "") :=
  C4_decision_resilience cfg4 ev4 lead4 (by decide) (by decide)

/-! ### C9: post-handoff mode -/

theorem forwardCount_nil : forwardCount [] = 0 := rfl

theorem forwardCount_cons_conv (e : List Effect) :
    forwardCount (Effect.convWrite :: e) = forwardCount e := rfl

/-- C9: once handed off, processing a further inbound message makes no
provider call, records exactly the fixed acknowledgment as the only bot
reply, and delivers at most one forwarded notice to the operator — none
at all when outbound sending is globally suppressed (DEV_MODE). -/
theorem C9_post_handoff (cfg : Config) (ev : Ev) (lead : Lead)
    (h : lead.handedOff = true) :
    aiCalls (processInbound cfg ev lead).2 = [] ∧
    botTexts lead (processInbound cfg ev lead).1 = [ackReply lead] ∧
    forwardCount (processInbound cfg ev lead).2 ≤ 1 ∧
    (cfg.devMode = true → forwardCount (processInbound cfg ev lead).2 = 0) := by
  rw [processInbound_post cfg ev lead h]
  refine ⟨?_, ?_, ?_, ?_⟩
  · simp only [aiCalls_append, aiCalls_sendWhatsApp, aiCalls_cons_conv, aiCalls_nil,
      List.append_nil, List.nil_append]
    split <;> simp [aiCalls_sendWhatsApp, aiCalls_nil]
  · exact botTexts_single lead _ ev.nowIso (ackReply lead) rfl
  · simp only [forwardCount_append, forwardCount_cons_conv, forwardCount_nil,
      forwardCount_sendWhatsApp_ack]
    split
    · have hle := forwardCount_sendWhatsApp_le cfg cfg.handoffTo
        (forwardBody (appendMessage lead ev.nowIso "bot" (ackReply lead)) (jsTrim ev.body))
      omega
    · decide
  · intro hdev
    rw [if_neg (by simp [hdev])]
    simp only [forwardCount_append, forwardCount_cons_conv, forwardCount_nil,
      forwardCount_sendWhatsApp_ack]

/-- Configuration used by the C9 witness. -/
def cfg9 : Config := ⟨true, "whatsapp:+5491122334455", "gpt-5-mini", "gpt-5-nano"⟩

/-- An already-handed-off conversation for the C9 witness. -/
def lead9 : Lead :=
  { phone := "5493411234567", name := "Ana", zone := "Fisherton",
    intentSummary := "Cortinas roller", messages := [],
    createdAt := "2025-01-01T00:00:00.000Z", handedOff := true,
    pendingHandoff := none }

/-- A follow-up message arriving after the handoff. -/
def ev9 : Ev :=
  ⟨"Una consulta más sobre los colores", "whatsapp:+5493411234567",
   "2025-01-01T00:20:00.000Z", "20250101_002000", none, none⟩

/-- C9 (witness): the theorem applied at a concrete post-handoff
message in the suppressed deployment. -/
theorem C9_post_handoff_witness :
    aiCalls (processInbound cfg9 ev9 lead9).2 = [] ∧
    botTexts lead9 (processInbound cfg9 ev9 lead9).1 = [ackReply lead9] ∧
    forwardCount (processInbound cfg9 ev9 lead9).2 ≤ 1 ∧
    forwardCount (processInbound cfg9 ev9 lead9).2 = 0 :=
  ⟨(C9_post_handoff cfg9 ev9 lead9 (by decide)).1,
   (C9_post_handoff cfg9 ev9 lead9 (by decide)).2.1,
   (C9_post_handoff cfg9 ev9 lead9 (by decide)).2.2.1,
   (C9_post_handoff cfg9 ev9 lead9 (by decide)).2.2.2 (by decide)⟩

/-! ### C10: greeting shortcut (with the pending-handoff invariant) -/

theorem appendMessage_pending (lead : Lead) (ts o t : String) :
    (appendMessage lead ts o t).pendingHandoff = lead.pendingHandoff := rfl

theorem appendMessage_name (lead : Lead) (ts o t : String) :
    (appendMessage lead ts o t).name = lead.name := rfl

theorem appendMessage_zone (lead : Lead) (ts o t : String) :
    (appendMessage lead ts o t).zone = lead.zone := rfl

theorem appendMessage_intent (lead : Lead) (ts o t : String) :
    (appendMessage lead ts o t).intentSummary = lead.intentSummary := rfl

theorem mergeFields_pending (lead : Lead) (out : Decision) :
    (mergeFields lead out).pendingHandoff = lead.pendingHandoff := rfl

theorem safeHandoffType_valid (o : Option String) (t : String)
    (h : safeHandoffType o = some t) : t = "visit" ∨ t = "price" := by
  cases o with
  | none => simp [safeHandoffType] at h
  | some s =>
    by_cases hv : s = "visit" ∨ s = "price"
    · have hs : safeHandoffType (some s) = some s := by
        show (if s = "visit" ∨ s = "price" then some s else none) = some s
        rw [if_pos hv]
      rw [hs] at h
      injection h with h2
      rw [← h2]
      exact hv
    · have hs : safeHandoffType (some s) = none := by
        show (if s = "visit" ∨ s = "price" then some s else none) = none
        rw [if_neg hv]
      rw [hs] at h
      exact Option.noConfusion h

theorem activeTypeOf_valid (lead : Lead) (out : Decision) (t : String)
    (h : activeTypeOf lead out = some t) : t = "visit" ∨ t = "price" := by
  unfold activeTypeOf at h
  cases hp : pendingTypeOf lead with
  | some s =>
    rw [hp] at h
    have h2 : some s = some t := h
    injection h2 with h3
    rw [← h3]
    exact safeHandoffType_valid _ s hp
  | none =>
    rw [hp] at h
    have h2 : aiIntentOf out = some t := h
    exact safeHandoffType_valid _ t h2

theorem activeTypeOf_none_pending (lead : Lead) (out : Decision)
    (h : activeTypeOf lead out = none) : pendingTypeOf lead = none := by
  unfold activeTypeOf at h
  cases hp : pendingTypeOf lead with
  | some s =>
    rw [hp] at h
    have h2 : some s = (none : Option String) := h
    exact Option.noConfusion h2
  | none => rfl

theorem pendingInvB_none (lead : Lead) (h : lead.pendingHandoff = none) :
    pendingInvB lead = true := by
  simp [pendingInvB, h]

theorem readyOf_false_missing (lead : Lead) (h : readyOf lead = false) :
    lead.intentSummary = "" ∨ lead.name = "" ∨ lead.zone = "" := by
  by_contra hc
  push_neg at hc
  simp [readyOf, hc.1, hc.2.1, hc.2.2] at h

theorem afterDecision_pendingInv (cfg : Config) (ev : Ev) (inc : String) (out : Decision)
    (lead : Lead) (h : pendingInvB lead = true) :
    pendingInvB (afterDecision cfg ev inc out lead).1 = true := by
  cases hA : activeTypeOf lead out with
  | none =>
    rw [afterDecision_none cfg ev inc out lead hA]
    have hp : pendingTypeOf lead = none := activeTypeOf_none_pending lead out hA
    cases hpp : lead.pendingHandoff with
    | none =>
      exact pendingInvB_none _ (by rw [appendMessage_pending, mergeFields_pending]; exact hpp)
    | some p =>
      exfalso
      have hv : p.type = "visit" ∨ p.type = "price" := by
        simp [pendingInvB, hpp] at h
        exact h.1
      unfold pendingTypeOf at hp
      rw [hpp] at hp
      simp [safeHandoffType, hv] at hp
  | some t =>
    cases hR : readyOf (mergeFields lead out) with
    | true =>
      rw [afterDecision_ready cfg ev inc out lead t hA hR]
      apply pendingInvB_none
      rw [doHandoff_pending]
    | false =>
      rw [afterDecision_notReady cfg ev inc out lead t hA hR]
      have hmiss := readyOf_false_missing (mergeFields lead out) hR
      split
      · have hv := activeTypeOf_valid lead out t hA
        simp only [pendingInvB, appendMessage_pending, appendMessage_name,
          appendMessage_zone, appendMessage_intent, decide_eq_true_eq]
        exact ⟨hv, hmiss⟩
      · rename_i hnone
        cases hpp : lead.pendingHandoff with
        | none =>
          exfalso
          apply hnone
          rw [mergeFields_pending, hpp]
          rfl
        | some p =>
          have hv : p.type = "visit" ∨ p.type = "price" := by
            simp [pendingInvB, hpp] at h
            exact h.1
          simp only [pendingInvB, appendMessage_pending, appendMessage_name,
            appendMessage_zone, appendMessage_intent, mergeFields_pending, hpp,
            decide_eq_true_eq]
          exact ⟨hv, hmiss⟩

theorem processInbound_pendingInv (cfg : Config) (ev : Ev) (lead : Lead)
    (h : pendingInvB lead = true) :
    pendingInvB (processInbound cfg ev lead).1 = true := by
  by_cases hh : lead.handedOff = true
  · rw [processInbound_post cfg ev lead hh]
    exact h
  · rw [Bool.not_eq_true] at hh
    by_cases hg : isTrivialGreeting (jsTrim ev.body) = true
    · cases hp : pendingTypeOf lead with
      | some t =>
        rw [processInbound_greeting_pending cfg ev lead t hh hg hp]
        exact h
      | none =>
        rw [processInbound_greeting_fresh cfg ev lead hh hg hp]
        exact h
    · rw [Bool.not_eq_true] at hg
      cases ho1 : ev.o1 with
      | some out =>
        rw [processInbound_dec1 cfg ev lead out hh hg ho1]
        exact afterDecision_pendingInv cfg ev (jsTrim ev.body) out lead h
      | none =>
        cases ho2 : ev.o2 with
        | some out =>
          rw [processInbound_dec2 cfg ev lead out hh hg ho1 ho2]
          exact afterDecision_pendingInv cfg ev (jsTrim ev.body) out lead h
        | none =>
          rw [processInbound_fail cfg ev lead hh hg ho1 ho2]
          exact h

theorem runTrace_pendingInv (cfg : Config) (evs : List Ev) : ∀ lead : Lead,
    pendingInvB lead = true → pendingInvB (runTrace cfg lead evs).1 = true := by
  induction evs with
  | nil => exact fun lead h => h
  | cons ev evs ih =>
    intro lead h
    simp only [runTrace]
    exact ih (webhookStep cfg ev lead).1 (processInbound_pendingInv cfg ev _ h)

/-- C10: a trivial greeting (empty, at most 3 UTF-16 units, or one of
the fixed greetings after trimming and lowercasing) is answered without
any provider call; under the reachable-state invariant `pendingInvB`
(fresh conversations satisfy it and every step preserves it — see
`runTrace_pendingInv`), the reply is the deterministic missing-field
question exactly when a handoff is pending, and the fixed greeting
otherwise; moreover a pending handoff implies a field is missing. -/
theorem C10_greeting_shortcut (cfg : Config) (ev : Ev) (lead : Lead)
    (h : lead.handedOff = false)
    (hg : isTrivialGreeting (jsTrim ev.body) = true)
    (hInv : pendingInvB lead = true) :
    aiCalls (processInbound cfg ev lead).2 = [] ∧
    botTexts lead (processInbound cfg ev lead).1 =
      [match lead.pendingHandoff with
       | some _ => askMissingForHandoff lead
       | none => helloReply] ∧
    (lead.pendingHandoff.isSome = true →
      (lead.intentSummary = "" ∨ lead.name = "" ∨ lead.zone = "")) := by
  cases hpp : lead.pendingHandoff with
  | none =>
    have hTy : pendingTypeOf lead = none := by
      unfold pendingTypeOf
      rw [hpp]
      rfl
    rw [processInbound_greeting_fresh cfg ev lead h hg hTy]
    refine ⟨?_, ?_, ?_⟩
    · simp [aiCalls_append, aiCalls_sendWhatsApp, aiCalls_cons_conv, aiCalls_nil]
    · exact botTexts_single lead _ ev.nowIso helloReply rfl
    · intro hs
      simp [hpp] at hs
  | some p =>
    have hParts : (p.type = "visit" ∨ p.type = "price") ∧
        (lead.intentSummary = "" ∨ lead.name = "" ∨ lead.zone = "") := by
      simp [pendingInvB, hpp] at hInv
      exact hInv
    have hTy : pendingTypeOf lead = some p.type := by
      unfold pendingTypeOf
      rw [hpp]
      show (if p.type = "visit" ∨ p.type = "price" then some p.type else none) = some p.type
      rw [if_pos hParts.1]
    rw [processInbound_greeting_pending cfg ev lead p.type h hg hTy]
    refine ⟨?_, ?_, fun _ => hParts.2⟩
    · simp [aiCalls_append, aiCalls_sendWhatsApp, aiCalls_cons_conv, aiCalls_nil]
    · exact botTexts_single lead _ ev.nowIso (askMissingForHandoff lead) rfl

/-- Configuration used by the C10 witness. -/
def cfg10 : Config := ⟨true, "whatsapp:+5491122334455", "gpt-5-mini", "gpt-5-nano"⟩

/-- A conversation with a pending price handoff and missing fields. -/
def lead10 : Lead :=
  { phone := "5493411234567", name := "", zone := "", intentSummary := "",
    messages := [], createdAt := "2025-01-01T00:00:00.000Z", handedOff := false,
    pendingHandoff := some ⟨"price", "2025-01-01T00:00:01.000Z"⟩ }

/-- A trivial greeting arriving while the handoff is pending. -/
def ev10 : Ev :=
  ⟨"  Hola  ", "whatsapp:+5493411234567", "2025-01-01T00:05:00.000Z",
   "20250101_000500", none, none⟩

/-- C10 (witness): the theorem applied at a concrete pending-handoff
greeting. -/
theorem C10_greeting_shortcut_witness :
    aiCalls (processInbound cfg10 ev10 lead10).2 = [] ∧
    botTexts lead10 (processInbound cfg10 ev10 lead10).1 =
      [match lead10.pendingHandoff with
       | some _ => askMissingForHandoff lead10
       | none => helloReply] ∧
    (lead10.pendingHandoff.isSome = true →
      (lead10.intentSummary = "" ∨ lead10.name = "" ∨ lead10.zone = "")) :=
  C10_greeting_shortcut cfg10 ev10 lead10 (by decide) (by decide) (by decide)

/-! ### C7: pending-handoff bookkeeping -/

theorem afterDecision_pending_spec (cfg : Config) (ev : Ev) (inc : String)
    (out : Decision) (lead : Lead) (t : String)
    (hA : activeTypeOf lead out = some t) (hOff : lead.handedOff = false) :
    (readyOf (mergeFields lead out) = false →
      (afterDecision cfg ev inc out lead).1.handedOff = false ∧
      snapshotCount (afterDecision cfg ev inc out lead).2 = 0 ∧
      (lead.pendingHandoff = none →
        (afterDecision cfg ev inc out lead).1.pendingHandoff =
          some ⟨t, ev.nowIso⟩) ∧
      (lead.pendingHandoff.isSome = true →
        (afterDecision cfg ev inc out lead).1.pendingHandoff = lead.pendingHandoff)) ∧
    (readyOf (mergeFields lead out) = true →
      (afterDecision cfg ev inc out lead).1.pendingHandoff = none ∧
      botTexts lead (afterDecision cfg ev inc out lead).1 =
        [confirmReply (mergeFields lead out)] ∧
      snapshotCount (afterDecision cfg ev inc out lead).2 = 1) := by
  constructor
  · intro hR
    rw [afterDecision_notReady cfg ev inc out lead t hA hR]
    refine ⟨?_, ?_, ?_, ?_⟩
    · split <;> exact hOff
    · simp [snapshotCount_append, snapshotCount_sendWhatsApp, snapshotCount_cons_conv,
        snapshotCount_nil]
    · intro hnone
      have hc : (mergeFields lead out).pendingHandoff.isNone = true := by
        rw [mergeFields_pending, hnone]
        rfl
      rw [if_pos hc]
      rfl
    · intro hsome
      have hc : ¬((mergeFields lead out).pendingHandoff.isNone = true) := by
        rw [mergeFields_pending]
        cases hpp : lead.pendingHandoff with
        | none =>
          rw [hpp] at hsome
          exact absurd hsome (by simp)
        | some p => simp
      rw [if_neg hc, appendMessage_pending, mergeFields_pending]
  · intro hR
    rw [afterDecision_ready cfg ev inc out lead t hA hR]
    refine ⟨?_, ?_, ?_⟩
    · rw [doHandoff_pending]
    · rcases doHandoff_messages cfg ev
        ({ appendMessage (mergeFields lead out) ev.nowIso "bot"
             (confirmReply (mergeFields lead out)) with pendingHandoff := none })
        inc t with hm | ⟨txt, hm⟩
      · refine botTexts_single lead _ ev.nowIso _ ?_
        rw [hm]
        rfl
      · refine botTexts_bot_then_system lead _ ev.nowIso _
          [Msg.mk ev.nowIso "system" txt] ?_ ?_
        · rw [hm]
          show (lead.messages ++
              [Msg.mk ev.nowIso "bot" (confirmReply (mergeFields lead out))]) ++
              [Msg.mk ev.nowIso "system" txt] =
            lead.messages ++
              (Msg.mk ev.nowIso "bot" (confirmReply (mergeFields lead out)) ::
                [Msg.mk ev.nowIso "system" txt])
          rw [List.append_assoc]
          rfl
        · intro m hm2
          have hm3 : m = Msg.mk ev.nowIso "system" txt := by simpa using hm2
          rw [hm3]
    · simp only [snapshotCount_append, snapshotCount_sendWhatsApp, snapshotCount_cons_conv,
        snapshotCount_nil, doHandoff_snapshots]
      have hOff2 : ({ appendMessage (mergeFields lead out) ev.nowIso "bot"
          (confirmReply (mergeFields lead out)) with pendingHandoff := none }).handedOff =
          false := hOff
      rw [hOff2]
      simp

/-- C7 (amended): on the decision path with an active handoff type,
if the merged fields are still incomplete then no handoff occurs and
`pendingHandoff` is set to `{type: activeType, requestedAt: now}` only
when absent — an existing pending request is left unchanged (it is not
refreshed); on the message that completes the fields, `pendingHandoff`
is cleared, exactly one handoff snapshot is taken, and the deterministic
(non-AI) confirmation is the only bot reply. -/
theorem C7_pending_bookkeeping (cfg : Config) (ev : Ev) (lead : Lead)
    (out : Decision) (t : String)
    (h : lead.handedOff = false)
    (hg : isTrivialGreeting (jsTrim ev.body) = false)
    (ho : oracleDecision ev = some out)
    (hA : activeTypeOf lead out = some t) :
    (readyOf (mergeFields lead out) = false →
      (processInbound cfg ev lead).1.handedOff = false ∧
      snapshotCount (processInbound cfg ev lead).2 = 0 ∧
      (lead.pendingHandoff = none →
        (processInbound cfg ev lead).1.pendingHandoff = some ⟨t, ev.nowIso⟩) ∧
      (lead.pendingHandoff.isSome = true →
        (processInbound cfg ev lead).1.pendingHandoff = lead.pendingHandoff)) ∧
    (readyOf (mergeFields lead out) = true →
      (processInbound cfg ev lead).1.pendingHandoff = none ∧
      botTexts lead (processInbound cfg ev lead).1 =
        [confirmReply (mergeFields lead out)] ∧
      snapshotCount (processInbound cfg ev lead).2 = 1) := by
  cases ho1 : ev.o1 with
  | some o =>
    have hoo : o = out := by
      unfold oracleDecision at ho
      rw [ho1] at ho
      have h2 : some o = some out := ho
      injection h2
    rw [hoo] at ho1
    rw [processInbound_dec1 cfg ev lead out h hg ho1]
    have hs := afterDecision_pending_spec cfg ev (jsTrim ev.body) out lead t hA h
    simp only [snapshotCount_cons_ai]
    exact hs
  | none =>
    have ho2 : ev.o2 = some out := by
      unfold oracleDecision at ho
      rw [ho1] at ho
      exact ho
    rw [processInbound_dec2 cfg ev lead out h hg ho1 ho2]
    have hs := afterDecision_pending_spec cfg ev (jsTrim ev.body) out lead t hA h
    simp only [snapshotCount_cons_ai]
    exact hs

/-- Configuration used by the C7 instances. -/
def cfg7 : Config := ⟨true, "whatsapp:+5491122334455", "gpt-5-mini", "gpt-5-nano"⟩

/-- A conversation with a price handoff already pending since `T0` and
all fields still missing. -/
def lead7 : Lead :=
  { phone := "5493411234567", name := "", zone := "", intentSummary := "",
    messages := [], createdAt := "2025-01-01T00:00:00.000Z", handedOff := false,
    pendingHandoff := some ⟨"price", "T0"⟩ }

/-- A later message processed at time `T1` that does not complete the
fields. -/
def ev7 : Ev :=
  ⟨"y ustedes que ofrecen exactamente", "whatsapp:+5493411234567", "T1",
   "20250101_000500", some ⟨"Tenemos roller, textiles y toldos.", "", "", "", "none"⟩, none⟩

/-- C7: the claim is false as stated — on a message processed at `T1`
with the handoff still incomplete, `pendingHandoff` keeps its original
`requestedAt = T0`; it is not refreshed to `{type, requestedAt: now}`. -/
theorem C7_counterexample :
    (processInbound cfg7 ev7 lead7).1.pendingHandoff = some ⟨"price", "T0"⟩ ∧
    ev7.nowIso = "T1" ∧ ("T0" : String) ≠ "T1" := by
  decide

/-- A fresh conversation for the C7 witness. -/
def lead7w : Lead := freshLead "5493411234567" "2025-01-01T00:00:00.000Z"

/-- The decision of the C7 witness: an explicit price request with no
extracted fields. -/
def dec7w : Decision := ⟨"¡Claro!", "", "", "", "price"⟩

/-- The inbound event of the C7 witness. -/
def ev7w : Ev :=
  ⟨"Cuanto sale una cortina roller", "whatsapp:+5493411234567",
   "2025-01-02T00:00:00.000Z", "20250102_000000", some dec7w, none⟩

/-- C7 (witness): the amended theorem applied at a concrete first-time
price request with missing fields. -/
theorem C7_pending_bookkeeping_witness :
    (readyOf (mergeFields lead7w dec7w) = false →
      (processInbound cfg7 ev7w lead7w).1.handedOff = false ∧
      snapshotCount (processInbound cfg7 ev7w lead7w).2 = 0 ∧
      (lead7w.pendingHandoff = none →
        (processInbound cfg7 ev7w lead7w).1.pendingHandoff =
          some ⟨"price", ev7w.nowIso⟩) ∧
      (lead7w.pendingHandoff.isSome = true →
        (processInbound cfg7 ev7w lead7w).1.pendingHandoff = lead7w.pendingHandoff)) ∧
    (readyOf (mergeFields lead7w dec7w) = true →
      (processInbound cfg7 ev7w lead7w).1.pendingHandoff = none ∧
      botTexts lead7w (processInbound cfg7 ev7w lead7w).1 =
        [confirmReply (mergeFields lead7w dec7w)] ∧
      snapshotCount (processInbound cfg7 ev7w lead7w).2 = 1) :=
  C7_pending_bookkeeping cfg7 ev7w lead7w dec7w "price"
    (by decide) (by decide) (by decide) (by decide)

/-! ### C5: the missing-field question -/

/-- A lead with every qualification field missing, for the C5
counterexample. -/
def lead5 : Lead := freshLead "5493411234567" "2025-01-01T00:00:00.000Z"

/-- C5: the claim is false as stated.  With all fields missing the
synthesized fallback reply is the bundled sentence that requests three
fields at once — the intent summary plus "tu nombre + zona/barrio" —
not exactly one field. -/
theorem C5_counterexample :
    requestedFields lead5 = ["intentSummary", "name", "zone"] ∧
    (requestedFields lead5).length ≠ 1 ∧
    askMissingForHandoff lead5 =
      "Perfecto 🙂 Antes de derivarte, ¿me contás brevemente qué estás buscando (tipo de cortina y para qué ambiente) y tu nombre + zona/barrio?" := by
  decide

theorem askMissing_questionCount (lead : Lead) :
    questionCount (askMissingForHandoff lead) ≤ 1 := by
  simp only [askMissingForHandoff]
  repeat' split
  all_goals decide

/-- C5 (amended): the deterministic reply always asks at most one
question (at most one question mark); it requests no field exactly when
nothing is missing; the first field it requests is the highest-priority
missing one in the fixed order intentSummary, name, zone (availability
is not tracked); and when exactly one field is missing it requests
exactly that field with the corresponding single-field question.  When
several fields are missing the single question bundles them. -/
theorem C5_one_question (lead : Lead) :
    questionCount (askMissingForHandoff lead) ≤ 1 ∧
    (requestedFields lead = [] ↔
      lead.intentSummary ≠ "" ∧ lead.name ≠ "" ∧ lead.zone ≠ "") ∧
    (requestedFields lead).head? =
      (if lead.intentSummary = "" then some "intentSummary"
       else if lead.name = "" then some "name"
       else if lead.zone = "" then some "zone"
       else none) ∧
    (lead.intentSummary = "" ∧ lead.name ≠ "" ∧ lead.zone ≠ "" →
      requestedFields lead = ["intentSummary"] ∧
      askMissingForHandoff lead =
        "Perfecto 🙂 Antes de derivarte, ¿me contás brevemente qué estás buscando (tipo de cortina y para qué ambiente)?") ∧
    (lead.intentSummary ≠ "" ∧ lead.name = "" ∧ lead.zone ≠ "" →
      requestedFields lead = ["name"] ∧
      askMissingForHandoff lead = "Dale 🙂 Antes de pasarte con un asesor, ¿me decís tu nombre?") ∧
    (lead.intentSummary ≠ "" ∧ lead.name ≠ "" ∧ lead.zone = "" →
      requestedFields lead = ["zone"] ∧
      askMissingForHandoff lead = "Perfecto 🙂 ¿En qué zona/barrio estás (Rosario o alrededores)?") := by
  refine ⟨askMissing_questionCount lead, ?_⟩
  by_cases hi : lead.intentSummary = "" <;> by_cases hn : lead.name = "" <;>
    by_cases hz : lead.zone = "" <;>
    simp [askMissingForHandoff, requestedFields, hi, hn, hz]

/-- A lead missing exactly the intent summary, for the C5 witness. -/
def lead5w : Lead :=
  { phone := "5493411234567", name := "Ana", zone := "Fisherton",
    intentSummary := "", messages := [], createdAt := "2025-01-01T00:00:00.000Z",
    handedOff := false, pendingHandoff := none }

/-- C5 (witness): the amended theorem applied where exactly the intent
summary is missing — the reply requests exactly that field. -/
theorem C5_one_question_witness :
    questionCount (askMissingForHandoff lead5w) ≤ 1 ∧
    requestedFields lead5w = ["intentSummary"] ∧
    askMissingForHandoff lead5w =
      "Perfecto 🙂 Antes de derivarte, ¿me contás brevemente qué estás buscando (tipo de cortina y para qué ambiente)?" :=
  ⟨(C5_one_question lead5w).1,
   ((C5_one_question lead5w).2.2.2.1 (by decide)).1,
   ((C5_one_question lead5w).2.2.2.1 (by decide)).2⟩

/-! ### C8: parsing policy for the provider's raw output -/

theorem splitFirst_spec (c : Char) : ∀ (cs a b : List Char),
    splitFirst c cs = some (a, b) ↔ cs = a ++ c :: b ∧ c ∉ a := by
  intro cs
  induction cs with
  | nil =>
    intro a b
    constructor
    · intro h
      simp [splitFirst] at h
    · rintro ⟨h1, -⟩
      cases a <;> simp_all
  | cons x xs ih =>
    intro a b
    by_cases hx : x = c
    · subst hx
      rw [show splitFirst x (x :: xs) = some ([], xs) from by simp [splitFirst]]
      constructor
      · intro h
        have h2 : ([], xs) = (a, b) := by injection h
        have ha : a = [] := (congrArg Prod.fst h2).symm
        have hb : b = xs := (congrArg Prod.snd h2).symm
        subst ha
        subst hb
        simp
      · rintro ⟨h1, h2⟩
        cases a with
        | nil =>
          simp only [List.nil_append] at h1
          have hpair : x = x ∧ xs = b := by rwa [List.cons.injEq] at h1
          rw [hpair.2]
        | cons y a2 =>
          rw [List.cons_append] at h1
          have hpair : x = y ∧ xs = a2 ++ x :: b := by rwa [List.cons.injEq] at h1
          exact absurd (by rw [hpair.1]; exact List.mem_cons_self y a2) h2
    · rw [show splitFirst c (x :: xs) =
          (splitFirst c xs).map (fun p => (x :: p.1, p.2)) from by simp [splitFirst, hx]]
      constructor
      · intro h
        rcases Option.map_eq_some'.mp h with ⟨⟨a2, b2⟩, hs, heq⟩
        have ha : a = x :: a2 := (congrArg Prod.fst heq).symm
        have hb : b = b2 := (congrArg Prod.snd heq).symm
        subst ha
        subst hb
        rcases (ih a2 b).mp hs with ⟨h1, h2⟩
        refine ⟨by rw [List.cons_append, h1], ?_⟩
        intro hc
        rcases List.mem_cons.mp hc with h3 | h3
        · exact hx h3.symm
        · exact h2 h3
      · rintro ⟨h1, h2⟩
        cases a with
        | nil =>
          simp only [List.nil_append] at h1
          have hpair : x = c ∧ xs = b := by rwa [List.cons.injEq] at h1
          exact absurd hpair.1 hx
        | cons y a2 =>
          rw [List.cons_append] at h1
          have hpair : x = y ∧ xs = a2 ++ c :: b := by rwa [List.cons.injEq] at h1
          rcases hpair with ⟨hxy, hxs⟩
          subst hxy
          have h5 : c ∉ a2 := fun hm => h2 (List.mem_cons_of_mem _ hm)
          rw [Option.map_eq_some']
          exact ⟨(a2, b), (ih a2 b).mpr ⟨hxs, h5⟩, rfl⟩

theorem braceSliceL_spec (cs u : List Char) :
    braceSliceL cs = some u ↔
      ∃ pre mid post, cs = pre ++ lbrace :: (mid ++ rbrace :: post) ∧
        lbrace ∉ pre ∧ rbrace ∉ post ∧ u = lbrace :: (mid ++ [rbrace]) := by
  constructor
  · intro h
    unfold braceSliceL at h
    cases h1 : splitFirst lbrace cs with
    | none =>
      simp only [h1] at h
      exact Option.noConfusion h
    | some pr =>
      obtain ⟨pre, rest⟩ := pr
      simp only [h1] at h
      cases h2 : splitFirst rbrace rest.reverse with
      | none =>
        simp only [h2] at h
        exact Option.noConfusion h
      | some pq =>
        obtain ⟨rpost, rmid⟩ := pq
        simp only [h2, Option.some.injEq] at h
        have hcs := (splitFirst_spec lbrace cs pre rest).mp h1
        have hrev := (splitFirst_spec rbrace rest.reverse rpost rmid).mp h2
        have hrest : rest = rmid.reverse ++ rbrace :: rpost.reverse := by
          have h4 := congrArg List.reverse hrev.1
          simpa using h4
        refine ⟨pre, rmid.reverse, rpost.reverse, ?_, hcs.2, ?_, h.symm⟩
        · rw [hcs.1, hrest]
        · simpa using hrev.2
  · rintro ⟨pre, mid, post, hcs, hpre, hpost, hu⟩
    have h1 : splitFirst lbrace cs = some (pre, mid ++ rbrace :: post) :=
      (splitFirst_spec lbrace cs pre (mid ++ rbrace :: post)).mpr ⟨hcs, hpre⟩
    have h2 : splitFirst rbrace (mid ++ rbrace :: post).reverse =
        some (post.reverse, mid.reverse) := by
      apply (splitFirst_spec rbrace _ _ _).mpr
      constructor
      · simp
      · simpa using hpost
    unfold braceSliceL
    simp only [h1, h2, hu]
    simp

/-- C8: the decoding tail of `aiDecideAndReply`.  The slice handed to
`JSON.parse` runs exactly from the first opening brace to the last
closing brace (characterized by `braceSliceL_spec`); the absence of such
a pair is a parse failure; an expected field that is absent or not a
string decodes to the empty string; and a handoff-intent value other
than the three expected strings (or of the wrong type) defaults to
`none`. -/
theorem C8_parse_policy :
    (∀ cs u, braceSliceL cs = some u ↔
      ∃ pre mid post, cs = pre ++ lbrace :: (mid ++ rbrace :: post) ∧
        lbrace ∉ pre ∧ rbrace ∉ post ∧ u = lbrace :: (mid ++ [rbrace])) ∧
    (∀ raw p, braceSliceL (jsTrim raw).data = none → aiDecodeOutput raw p = none) ∧
    (∀ raw p sub, braceSliceL (jsTrim raw).data = some sub →
      aiDecodeOutput raw p = (p sub).map decisionOfObj) ∧
    (∀ o k, getField o k = none → strField o k = "") ∧
    (∀ o k, getField o k = some JsVal.other → strField o k = "") ∧
    (∀ o, intentField o = "price" ∨ intentField o = "visit" ∨ intentField o = "none") ∧
    (∀ o s, getField o "handoff_intent" = some (JsVal.str s) →
      ¬(s = "price" ∨ s = "visit" ∨ s = "none") → intentField o = "none") := by
  refine ⟨braceSliceL_spec, ?_, ?_, ?_, ?_, ?_, ?_⟩
  · intro raw p h
    unfold aiDecodeOutput
    rw [h]
  · intro raw p sub h
    unfold aiDecodeOutput
    rw [h]
  · intro o k h
    unfold strField
    rw [h]
  · intro o k h
    unfold strField
    rw [h]
  · intro o
    unfold intentField
    split
    · split
      · rename_i hcond
        exact hcond
      · right
        right
        rfl
    · right
      right
      rfl
  · intro o s h1 h2
    unfold intentField
    simp only [h1]
    rw [if_neg h2]

/-- A raw provider output containing noise around one JSON object, for
the C8 witness. -/
def raw8 : String := String.mk ['x', lbrace, 'a', rbrace, 'y']

/-- A raw provider output with no brace pair, for the C8 witness. -/
def raw8bad : String := "sin json"

/-- A parsed object whose handoff intent is not one of the expected
values, for the C8 witness. -/
def obj8 : List (String × JsVal) := [("handoff_intent", JsVal.str "maybe")]

/-- C8 (witness): the parse-policy theorem applied at concrete raw
outputs and parsed objects. -/
theorem C8_parse_policy_witness :
    aiDecodeOutput raw8bad (fun _ => some []) = none ∧
    aiDecodeOutput raw8 (fun _ => some []) = some (decisionOfObj []) ∧
    strField [] "reply" = "" ∧
    strField [("reply", JsVal.other)] "reply" = "" ∧
    intentField obj8 = "none" :=
  ⟨C8_parse_policy.2.1 raw8bad (fun _ => some []) (by decide),
   by
     rw [C8_parse_policy.2.2.1 raw8 (fun _ => some [])
       [lbrace, 'a', rbrace] (by decide)]
     rfl,
   C8_parse_policy.2.2.2.1 [] "reply" (by decide),
   C8_parse_policy.2.2.2.2.1 [("reply", JsVal.other)] "reply" (by decide),
   C8_parse_policy.2.2.2.2.2.2 obj8 "maybe" (by decide) (by decide)⟩

/-! ### C3: scheduling of processing tasks -/

theorem schedRun_arrivals (ts : List TaskSpec) : ∀ (sched : List SLabel) (a : Nat)
    (prog : List Nat) (st : Nat × List Nat),
    schedRun ts a prog sched = some st → arrivalsConsecutive a sched = true := by
  intro sched
  induction sched with
  | nil =>
    intro a prog st _
    rfl
  | cons l rest ih =>
    intro a prog st h
    cases l with
    | arrive i =>
      unfold schedRun at h
      by_cases hc : i = a ∧ a < ts.length
      · rw [if_pos hc] at h
        simp [arrivalsConsecutive, hc.1, ih (a + 1) prog st h]
      · rw [if_neg hc] at h
        exact Option.noConfusion h
    | work i k =>
      unfold schedRun at h
      by_cases hc : i < a ∧ k = prog.getD i 0 ∧ k < (ts.getD i default).nSteps
      · rw [if_pos hc] at h
        simp [arrivalsConsecutive, ih a (prog.set i (k + 1)) st h]
      · rw [if_neg hc] at h
        exact Option.noConfusion h

/-- Two tasks on the same key `A`: the first request's task has two
awaited segments, the second's has one. -/
def tsC3 : List TaskSpec := [⟨"A", 2⟩, ⟨"A", 1⟩]

/-- A schedule the handler's constraints allow, in which the second
task runs — and completes — between the two segments of the first. -/
def schedC3 : List SLabel :=
  [SLabel.arrive 0, SLabel.arrive 1, SLabel.work 1 0, SLabel.work 0 0, SLabel.work 0 1]

/-- Two tasks on distinct keys, for the parallelism part of the amended
claim. -/
def tsC3par : List TaskSpec := [⟨"A", 1⟩, ⟨"B", 1⟩]

/-- A schedule in which the later-arrived distinct-key task completes
first. -/
def schedC3par : List SLabel :=
  [SLabel.arrive 0, SLabel.arrive 1, SLabel.work 1 0, SLabel.work 0 0]

/-- C3: the claim is false as stated.  The `/whatsapp` handler keeps no
per-key queue — it spawns `processInbound` immediately on every request
— so the embedded scheduling constraints admit a complete schedule in
which two tasks for the same key interleave and complete out of FIFO
order. -/
theorem C3_counterexample :
    completeSchedule tsC3 schedC3 = true ∧ serialFIFO tsC3 schedC3 = false := by
  decide

/-- C3 (amended): what the handler does guarantee.  (1) Requests are
handled — and each conversation's inbound message appended — in strict
arrival order: every schedule the constraints admit has consecutive
arrivals.  (2) A failing background task neither blocks nor cancels
anything: its `.catch` only appends a `PROCESS_INBOUND_ERR` system
entry, leaving every other component of the conversation unchanged.
(3) Tasks for distinct keys may run fully in parallel (a complete
schedule interleaves them) — but, per the counterexample, so may tasks
for the same key: there is no per-key serialization. -/
theorem C3_amended :
    (∀ (ts : List TaskSpec) (sched : List SLabel) (st : Nat × List Nat),
      schedRun ts 0 (List.replicate ts.length 0) sched = some st →
      arrivalsConsecutive 0 sched = true) ∧
    (∀ (lead : Lead) (ev : Ev) (m : String),
      (failCatch lead ev m).name = lead.name ∧
      (failCatch lead ev m).zone = lead.zone ∧
      (failCatch lead ev m).intentSummary = lead.intentSummary ∧
      (failCatch lead ev m).handedOff = lead.handedOff ∧
      (failCatch lead ev m).pendingHandoff = lead.pendingHandoff ∧
      (failCatch lead ev m).messages =
        lead.messages ++ [Msg.mk ev.nowIso "system" ("PROCESS_INBOUND_ERR: " ++ m)]) ∧
    completeSchedule tsC3par schedC3par = true := by
  refine ⟨?_, ?_, by decide⟩
  · intro ts sched st h
    exact schedRun_arrivals ts sched 0 (List.replicate ts.length 0) st h
  · intro lead ev m
    exact ⟨rfl, rfl, rfl, rfl, rfl, rfl⟩

/-- A conversation and event for the C3 witness. -/
def lead3 : Lead := freshLead "5493411234567" "2025-01-01T00:00:00.000Z"

/-- An event whose background task is assumed to fail, for the C3
witness. -/
def ev3 : Ev :=
  ⟨"hola", "whatsapp:+5493411234567", "2025-01-01T00:00:05.000Z",
   "20250101_000005", none, none⟩

/-- C3 (witness): the amended theorem applied at the concrete parallel
schedule and at a concrete failing task. -/
theorem C3_amended_witness :
    arrivalsConsecutive 0 schedC3par = true ∧
    (failCatch lead3 ev3 "boom").handedOff = lead3.handedOff :=
  ⟨C3_amended.1 tsC3par schedC3par (2, [1, 1]) (by decide),
   (C3_amended.2.1 lead3 ev3 "boom").2.2.2.1⟩

end Cortinas
